import Mathlib

set_option maxRecDepth 1000000

/-!
# SwapTrade counter contract: a shallow embedding with verified properties

This file embeds the trading and settlement engine of the SwapTrade Soroban
contract (`counter/trading.rs`, `counter/portfolio.rs`, `counter/batch.rs`,
`counter/tiers.rs`, `counter/src/rate_limit.rs`, `counter/src/lib.rs`) into
Lean and proves properties of the embedded operations.

Modelling conventions:
* `i128` values are Lean `Int`s and `u128`/`u64` values are Lean `Nat`s.
  Rust's `saturating_add` / `saturating_mul` / `saturating_sub` are modelled
  explicitly (`satAddI128`, `satMulU128`, ...).  The `as u128` / `as i128`
  casts are modelled as two's-complement reinterpretations (`toU128`,
  `toI128`).  Where an unchecked operation of the swap path can actually
  overflow or underflow at reachable inputs (the `amount * (10000 - 30)`
  multiply feeding the AMM quotient, the `theoretical_out - actual_out`
  subtraction of the slippage guard, and the `now - timestamp` staleness
  subtraction), the checked-arithmetic panic of the build is modelled as an
  abort; theorems whose claims depend on the absence of other overflow
  carry explicit range hypotheses.
* A Rust `panic!`/`assert!` aborts the Soroban host call and no storage write
  is committed, and `Err` returns are propagated without committing state.
  Both are modelled as `Except.error`: an errored operation yields no
  successor state, and the driver (`step`) keeps the pre-call state.
* Soroban `Map`s are modelled as total functions with pointwise update;
  missing keys read as the `unwrap_or` default used by the source.
* Fields of `Portfolio` that no modelled operation reads (badges, the
  transaction log, the top-trader leaderboard, the cached tier map, the
  aggregate volume and user counters) are omitted; the source code paths
  that touch only those fields are noted where they are dropped.  The
  per-user trade counts and volumes that drive the tier are modelled,
  including their updates by `record_transaction` on every lib-level swap.
-/

namespace SwapTrade

/-- Token symbols (Soroban `Symbol`) are short strings. -/
abbrev Sym := String

/-- Account identifiers (Soroban `Address`). -/
abbrev Addr := Nat

/-! ## Machine integer helpers -/

/-- Modulus of `u128`. -/
def U128_MOD : Nat := 2 ^ 128

/-- Largest `u128` value. -/
def U128_MAX : Nat := U128_MOD - 1

/-- Largest `i128` value. -/
def I128_MAX : Int := 2 ^ 127 - 1

/-- Smallest `i128` value. -/
def I128_MIN : Int := -(2 ^ 127)

/-- Largest `u32` value. -/
def U32_MAX : Nat := 4294967295

/-- Rust `u128::saturating_mul`. -/
def satMulU128 (a b : Nat) : Nat := min (a * b) U128_MAX

/-- Rust `u128::saturating_add`. -/
def satAddU128 (a b : Nat) : Nat := min (a + b) U128_MAX

/-- Rust `u32::saturating_add`. -/
def satAddU32 (a b : Nat) : Nat := min (a + b) U32_MAX

/-- Rust `i128::saturating_add`. -/
def satAddI128 (a b : Int) : Int := max I128_MIN (min (a + b) I128_MAX)

/-- Rust `i128::saturating_sub`. -/
def satSubI128 (a b : Int) : Int := max I128_MIN (min (a - b) I128_MAX)

/-- Rust `i128::saturating_mul`. -/
def satMulI128 (a b : Int) : Int := max I128_MIN (min (a * b) I128_MAX)

/-- Rust `x as u128` applied to an `i128`: two's-complement reinterpretation. -/
def toU128 (x : Int) : Nat := (x % (U128_MOD : Int)).toNat

/-- Rust `x as i128` applied to a `u128`: two's-complement reinterpretation. -/
def toI128 (n : Nat) : Int :=
  let m := n % U128_MOD
  if m < 2 ^ 127 then (m : Int) else (m : Int) - (U128_MOD : Int)

/-! ## Assets (portfolio.rs) -/

/-- `Asset`: XLM or a custom token, from `portfolio.rs`. -/
inductive Asset
  | XLM
  | Custom (s : Sym)
deriving DecidableEq

/-! ## Oracle (oracle.rs / trading.rs) -/

/-- `PriceData` from `oracle.rs`: fixed-point price, timestamp, virtual
liquidity. -/
structure PriceData where
  price : Nat
  timestamp : Nat
  liquidity : Nat
deriving DecidableEq

/-- The persistent price store: pair of symbols to optional quote. -/
abbrev PriceStore := Sym × Sym → Option PriceData

/-- Modelled from the spec: `get_stored_price` is referenced by
`trading.rs` but its definition is not among the sources; per spec §4.2 the
oracle store maps an asset pair to its quote and a missing key is a
not-found condition.  We model it as a lookup in the price store. -/
def get_stored_price (ps : PriceStore) (pair : Sym × Sym) : Option PriceData :=
  ps pair

/-- `PRECISION` (1e18) from `trading.rs` / `oracle.rs`. -/
def PRECISION : Nat := 1000000000000000000

/-- `STALE_THRESHOLD_SECONDS` from `trading.rs`. -/
def STALE_THRESHOLD_SECONDS : Nat := 600

/-- `LP_FEE_BPS` (0.3% = 30 bps) from `trading.rs`. -/
def LP_FEE_BPS : Nat := 30

/-- The oracle errors used by `trading.rs` (declared in the missing
`oracle` items; variants taken from their uses in `trading.rs`). -/
inductive ContractError
  | StalePrice
  | InvalidPrice
  | PriceNotSet
deriving DecidableEq

/-- Abort of the host call: a Rust `panic!`/`assert!` failure (including the
panics of checked integer arithmetic), or a recoverable `Err(Symbol)` from a
batch arm. -/
inductive Err
  | abort (msg : String)
  | opError (s : Sym)
deriving DecidableEq

/-- `get_price_with_staleness_check` from `trading.rs`: try `(from, to)`,
then `(to, from)` inverted; a quote older than the staleness threshold is an
error.  The `u64` subtraction `now - timestamp` underflows on a future-dated
quote, which the checked arithmetic of the build turns into a panic (a host
abort), so the result is either an abort or a `Result`. -/
def get_price_with_staleness_check (ps : PriceStore) (now : Nat) (frm tgt : Sym) :
    Except Err (Except ContractError Nat) :=
  match get_stored_price ps (frm, tgt) with
  | some data =>
    if now < data.timestamp then
      .error (.abort "attempt to subtract with overflow")
    else if STALE_THRESHOLD_SECONDS < now - data.timestamp then
      .ok (.error .StalePrice)
    else .ok (.ok data.price)
  | none =>
    match get_stored_price ps (tgt, frm) with
    | some data =>
      if now < data.timestamp then
        .error (.abort "attempt to subtract with overflow")
      else if STALE_THRESHOLD_SECONDS < now - data.timestamp then
        .ok (.error .StalePrice)
      else if data.price = 0 then .ok (.error .InvalidPrice)
      else .ok (.ok ((PRECISION * PRECISION) / data.price))
    | none => .ok (.error .PriceNotSet)

/-! ## Tiers (tiers.rs) -/

/-- `UserTier` from `tiers.rs`. -/
inductive UserTier
  | Novice
  | Trader
  | Expert
  | Whale
deriving DecidableEq

/-- `UserTier::effective_fee_bps` from `tiers.rs`. -/
def UserTier.effective_fee_bps : UserTier → Nat
  | .Novice => 30
  | .Trader => 25
  | .Expert => 20
  | .Whale => 15

/-- `calculate_user_tier` from `tiers.rs`. -/
def calculate_user_tier (trade_count : Nat) (volume : Int) : UserTier :=
  if 200 ≤ trade_count ∧ 10000 ≤ volume then .Whale
  else if 50 ≤ trade_count ∧ 1000 ≤ volume then .Expert
  else if 10 ≤ trade_count ∨ 100 ≤ volume then .Trader
  else .Novice

/-! ## Rate limiter (rate_limit.rs) -/

/-- `RateLimitConfig` from `rate_limit.rs`. -/
structure RateLimitConfig where
  swaps_per_hour : Nat
  lp_ops_per_day : Nat
deriving DecidableEq

/-- `RateLimitConfig::for_tier` from `rate_limit.rs`. -/
def RateLimitConfig.for_tier : UserTier → RateLimitConfig
  | .Novice => ⟨5, 10⟩
  | .Trader => ⟨20, 30⟩
  | .Expert => ⟨100, U32_MAX⟩
  | .Whale => ⟨U32_MAX, U32_MAX⟩

/-- `RateLimitStatus` from `rate_limit.rs`. -/
structure RateLimitStatus where
  used : Nat
  limit : Nat
  cooldown_ms : Nat
deriving DecidableEq

/-- `TimeWindow` from `rate_limit.rs`. -/
structure TimeWindow where
  window_start : Nat
  window_duration : Nat
deriving DecidableEq

/-- `TimeWindow::hourly`. -/
def TimeWindow.hourly (t : Nat) : TimeWindow := ⟨t / 3600 * 3600, 3600⟩

/-- `TimeWindow::daily`. -/
def TimeWindow.daily (t : Nat) : TimeWindow := ⟨t / 86400 * 86400, 86400⟩

/-- `TimeWindow::cooldown_ms`: milliseconds until the next window, clamped
to zero once the window has passed. -/
def TimeWindow.cooldown_ms (w : TimeWindow) (now : Nat) : Nat :=
  let next_window := w.window_start + w.window_duration
  if next_window ≤ now then 0 else (next_window - now) * 1000

/-- The persistent rate-limit counters, keyed by
`(user, operation class, window start)` as in `rate_limit.rs`. -/
abbrev RlStore := Addr → Sym → Nat → Nat

/-- The all-zero counter store (fresh persistent storage). -/
def freshRl : RlStore := fun _ _ _ => 0

/-- `RateLimiter::check_swap_limit`: `none` is `Ok(())`, `some st` is
`Err(st)`. -/
def check_swap_limit (store : RlStore) (now : Nat) (user : Addr)
    (tier : UserTier) : Option RateLimitStatus :=
  let config := RateLimitConfig.for_tier tier
  if config.swaps_per_hour = U32_MAX then none
  else
    let window := TimeWindow.hourly now
    let current_count := store user "swap" window.window_start
    if config.swaps_per_hour ≤ current_count then
      some ⟨current_count, config.swaps_per_hour, window.cooldown_ms now⟩
    else none

/-- `RateLimiter::record_swap`. -/
def record_swap (store : RlStore) (user : Addr) (timestamp : Nat) : RlStore :=
  let window := TimeWindow.hourly timestamp
  fun u c w =>
    if u = user ∧ c = "swap" ∧ w = window.window_start then
      store user "swap" window.window_start + 1
    else store u c w

/-- `RateLimiter::check_lp_limit`. -/
def check_lp_limit (store : RlStore) (now : Nat) (user : Addr)
    (tier : UserTier) : Option RateLimitStatus :=
  let config := RateLimitConfig.for_tier tier
  if config.lp_ops_per_day = U32_MAX then none
  else
    let window := TimeWindow.daily now
    let current_count := store user "lp_op" window.window_start
    if config.lp_ops_per_day ≤ current_count then
      some ⟨current_count, config.lp_ops_per_day, window.cooldown_ms now⟩
    else none

/-- `RateLimiter::record_lp_op`. -/
def record_lp_op (store : RlStore) (user : Addr) (timestamp : Nat) : RlStore :=
  let window := TimeWindow.daily timestamp
  fun u c w =>
    if u = user ∧ c = "lp_op" ∧ w = window.window_start then
      store user "lp_op" window.window_start + 1
    else store u c w

/-! ## Portfolio (portfolio.rs) -/

/-- `LPPosition` from `portfolio.rs` (the `lp_address` field duplicates the
map key and is dropped). -/
structure LPPosition where
  xlm_deposited : Int
  usdc_deposited : Int
  lp_tokens_minted : Int
deriving DecidableEq

/-- The `Portfolio` aggregate from `portfolio.rs`, restricted to the fields
the modelled operations read or write. -/
structure Portfolio where
  balances : Addr → Asset → Int
  trades : Addr → Nat
  user_volumes : Addr → Int
  pnl : Addr → Int
  xlm_in_pool : Int
  usdc_in_pool : Int
  total_fees_collected : Int
  lp_deposits_count : Addr → Nat
  lp_positions : Addr → Option LPPosition
  total_lp_tokens : Int
  lp_fees_accumulated : Int
  balances_updated : Nat
  trades_executed : Nat
  failed_orders : Nat

/-- `Portfolio::new`: everything empty / zero. -/
def Portfolio.new : Portfolio where
  balances := fun _ _ => 0
  trades := fun _ => 0
  user_volumes := fun _ => 0
  pnl := fun _ => 0
  xlm_in_pool := 0
  usdc_in_pool := 0
  total_fees_collected := 0
  lp_deposits_count := fun _ => 0
  lp_positions := fun _ => none
  total_lp_tokens := 0
  lp_fees_accumulated := 0
  balances_updated := 0
  trades_executed := 0
  failed_orders := 0

/-- Pointwise update of a balance map (`Map::set` on key `(user, asset)`). -/
def updateB (b : Addr → Asset → Int) (u : Addr) (a : Asset) (v : Int) :
    Addr → Asset → Int :=
  fun u' a' => if u' = u ∧ a' = a then v else b u' a'

/-- Pointwise update of a per-user map. -/
def updateU {α : Type} (f : Addr → α) (u : Addr) (v : α) : Addr → α :=
  fun u' => if u' = u then v else f u'

/-- `Portfolio::balance_of`. -/
def Portfolio.balance_of (p : Portfolio) (token : Asset) (user : Addr) : Int :=
  p.balances user token

/-- `Portfolio::transfer_asset`: debit `amount` of `from_token`, credit
`amount` of `to_token`; fails on non-positive amount or insufficient funds.
The credit reads the balance after the debit write, as the source does. -/
def Portfolio.transfer_asset (p : Portfolio) (from_token to_token : Asset)
    (user : Addr) (amount : Int) : Except Err Portfolio :=
  if amount ≤ 0 then .error (.abort "Amount must be positive")
  else
    let from_balance := p.balances user from_token
    if from_balance < amount then .error (.abort "Insufficient funds")
    else
      let b1 := updateB p.balances user from_token (from_balance - amount)
      let to_balance := b1 user to_token
      let b2 := updateB b1 user to_token (to_balance + amount)
      .ok { p with balances := b2,
                   balances_updated := satAddU32 p.balances_updated 2 }

/-- `Portfolio::debit`. -/
def Portfolio.debit (p : Portfolio) (token : Asset) (frm : Addr)
    (amount : Int) : Except Err Portfolio :=
  if amount ≤ 0 then .error (.abort "Amount must be positive")
  else
    let current := p.balances frm token
    if current < amount then .error (.abort "Insufficient funds")
    else
      .ok { p with balances := updateB p.balances frm token (current - amount),
                   pnl := updateU p.pnl frm (satSubI128 (p.pnl frm) amount),
                   balances_updated := satAddU32 p.balances_updated 1 }

/-- `Portfolio::mint` (the `update_top_traders` call touches only the
unmodelled leaderboard and is dropped). -/
def Portfolio.mint (p : Portfolio) (token : Asset) (dst : Addr)
    (amount : Int) : Except Err Portfolio :=
  if amount < 0 then .error (.abort "Amount must be non-negative")
  else
    .ok { p with balances := updateB p.balances dst token
                   (p.balances dst token + amount),
                 pnl := updateU p.pnl dst (p.pnl dst + amount),
                 balances_updated := satAddU32 p.balances_updated 1 }

/-- `Portfolio::record_trade` (the first-trade badge award touches only the
unmodelled badge map and is dropped). -/
def Portfolio.record_trade (p : Portfolio) (user : Addr) : Portfolio :=
  { p with trades := updateU p.trades user (p.trades user + 1),
           trades_executed := satAddU32 p.trades_executed 1 }

/-- `Portfolio::update_stats_on_trade`: saturating-add the swap amount to
the user's volume (the aggregate volume, user counters and active-user list
it also updates are unmodelled fields). -/
def Portfolio.update_stats_on_trade (p : Portfolio) (user : Addr)
    (swap_amount : Int) : Portfolio :=
  { p with user_volumes :=
      updateU p.user_volumes user (satAddI128 (p.user_volumes user) swap_amount) }

/-- `Portfolio::get_user_tier`: recomputed from trade count and volume. -/
def Portfolio.get_user_tier (p : Portfolio) (user : Addr) : UserTier :=
  calculate_user_tier (p.trades user) (p.user_volumes user)

/-- `Portfolio::add_pool_liquidity`. -/
def Portfolio.add_pool_liquidity (p : Portfolio) (xlm_amount usdc_amount : Int) :
    Portfolio :=
  { p with xlm_in_pool := satAddI128 p.xlm_in_pool xlm_amount,
           usdc_in_pool := satAddI128 p.usdc_in_pool usdc_amount }

/-- `Portfolio::collect_fee`. -/
def Portfolio.collect_fee (p : Portfolio) (fee_amount : Int) : Portfolio :=
  { p with total_fees_collected := satAddI128 p.total_fees_collected fee_amount }

/-- `Portfolio::set_liquidity`. -/
def Portfolio.set_liquidity (p : Portfolio) (asset : Asset) (amount : Int) :
    Portfolio :=
  match asset with
  | .XLM => { p with xlm_in_pool := amount }
  | .Custom sym =>
    if sym = "USDCSIM" then { p with usdc_in_pool := amount } else p

/-- `Portfolio::get_liquidity`. -/
def Portfolio.get_liquidity (p : Portfolio) (asset : Asset) : Int :=
  match asset with
  | .XLM => p.xlm_in_pool
  | .Custom sym => if sym = "USDCSIM" then p.usdc_in_pool else 0

/-- `Portfolio::set_lp_position`. -/
def Portfolio.set_lp_position (p : Portfolio) (user : Addr)
    (position : LPPosition) : Portfolio :=
  { p with lp_positions := updateU p.lp_positions user (some position) }

/-- `Portfolio::add_total_lp_tokens`. -/
def Portfolio.add_total_lp_tokens (p : Portfolio) (amount : Int) : Portfolio :=
  { p with total_lp_tokens := satAddI128 p.total_lp_tokens amount }

/-- `Portfolio::subtract_total_lp_tokens` (clamped at zero). -/
def Portfolio.subtract_total_lp_tokens (p : Portfolio) (amount : Int) :
    Portfolio :=
  let t := satSubI128 p.total_lp_tokens amount
  { p with total_lp_tokens := if t < 0 then 0 else t }

/-- `Portfolio::add_lp_fees`. -/
def Portfolio.add_lp_fees (p : Portfolio) (amount : Int) : Portfolio :=
  { p with lp_fees_accumulated := satAddI128 p.lp_fees_accumulated amount }

/-- `Portfolio::record_lp_deposit`. -/
def Portfolio.record_lp_deposit (p : Portfolio) (user : Addr) : Portfolio :=
  { p with lp_deposits_count :=
      updateU p.lp_deposits_count user (satAddU32 (p.lp_deposits_count user) 1) }

/-- `Portfolio::inc_failed_order`. -/
def Portfolio.inc_failed_order (p : Portfolio) : Portfolio :=
  { p with failed_orders := satAddU32 p.failed_orders 1 }

/-! ## Trading engine (trading.rs) -/

/-- `symbol_to_asset` from `trading.rs`: only `XLM` and `USDCSIM` are
recognized. -/
def symbol_to_asset (sym : Sym) : Option Asset :=
  if sym = "XLM" then some .XLM
  else if sym = "USDCSIM" then some (.Custom sym)
  else none

/-- Environment data read by `perform_swap`: the price store, the ledger
timestamp, and the `MAX_SLIP` instance-storage value (default 10000). -/
structure Ctx where
  prices : PriceStore
  now : Nat
  max_slip : Nat

/-- The `match get_price_with_staleness_check(...)` block of `perform_swap`
(it appears twice verbatim in the source): stale and invalid prices panic,
a missing price falls back to the 1:1 `PRECISION` default. -/
def oracle_price_or_default (ctx : Ctx) (frm tgt : Sym) : Except Err Nat :=
  match get_price_with_staleness_check ctx.prices ctx.now frm tgt with
  | .error e => .error e
  | .ok (.ok p) => .ok p
  | .ok (.error .StalePrice) => .error (.abort "Oracle price is stale")
  | .ok (.error .InvalidPrice) => .error (.abort "Oracle price is invalid")
  | .ok (.error .PriceNotSet) => .ok PRECISION

/-- The reserve selection of `perform_swap` step 2: `(reserveIn, reserveOut)`
as `u128` casts, chosen by which asset is the input. -/
def swap_reserves (xlm_liquidity usdc_liquidity : Int) (from_asset : Asset) :
    Nat × Nat :=
  if from_asset = .XLM then (toU128 xlm_liquidity, toU128 usdc_liquidity)
  else (toU128 usdc_liquidity, toU128 xlm_liquidity)

/-- `amount_in_after_fee` of `perform_swap` step 3:
`amount * (10000 - LP_FEE_BPS) / 10000` in `u128`.  The multiplication is
unchecked `u128` arithmetic; its overflow panic is modelled at the call
site in `perform_swap`, so this helper is only ever applied below the
overflow bound. -/
def amm_after_fee (amount_u128 : Nat) : Nat :=
  amount_u128 * (10000 - LP_FEE_BPS) / 10000

/-- The constant-product quotient of `perform_swap` step 3:
`saturating_mul(reserveOut, afterFee) / saturating_add(reserveIn, afterFee)`. -/
def amm_out (reserve_in reserve_out amount_u128 : Nat) : Nat :=
  satMulU128 reserve_out (amm_after_fee amount_u128) /
    satAddU128 reserve_in (amm_after_fee amount_u128)

/-- The fee-free `theoretical_out` of `perform_swap` step 5 (the zero
denominator falls back to the input amount). -/
def theo_out (reserve_in reserve_out amount_u128 : Nat) : Nat :=
  if satAddU128 reserve_in amount_u128 = 0 then amount_u128
  else satMulU128 reserve_out amount_u128 / satAddU128 reserve_in amount_u128

/-- The pool-reserve writes of `perform_swap` step 7: add the post-fee input
to the input side, subtract the output from the output side (both
saturating), starting from the liquidity captured before the transfer. -/
def apply_reserve_update (p1 : Portfolio) (from_asset : Asset)
    (xlm_liquidity usdc_liquidity after_fee out_amount : Int) : Portfolio :=
  if from_asset = .XLM then
    (p1.set_liquidity .XLM
        (satAddI128 xlm_liquidity after_fee)).set_liquidity
      (.Custom "USDCSIM") (satSubI128 usdc_liquidity out_amount)
  else
    (p1.set_liquidity (.Custom "USDCSIM")
        (satAddI128 usdc_liquidity after_fee)).set_liquidity
      .XLM (satSubI128 xlm_liquidity out_amount)

/-- `perform_swap` from `trading.rs`.  Mirrors the source order: validation,
oracle staleness probe, AMM output (constant product with a 30 bps fee on
the input) or oracle-priced fallback when either reserve is empty, output
positivity, slippage guard, balance transfer, reserve update, LP fee
accrual.  The unchecked `u128` multiply producing `amount_in_after_fee`
panics on overflow, and the unchecked `u128` subtraction
`theoretical_out - actual_out` of the slippage guard panics on underflow
(reachable only when saturation pushes the actual output above the
theoretical one); both panics are modelled as aborts.  On the rollback
semantics of the host, an error commits nothing. -/
def perform_swap (ctx : Ctx) (p : Portfolio) (frm tgt : Sym) (amount : Int)
    (user : Addr) : Except Err (Portfolio × Int) :=
  if amount ≤ 0 then .error (.abort "Amount must be positive")
  else if frm = tgt then .error (.abort "Tokens must be different")
  else
    match symbol_to_asset frm, symbol_to_asset tgt with
    | none, _ => .error (.abort "Invalid from token")
    | some _, none => .error (.abort "Invalid to token")
    | some from_asset, some to_asset =>
      match oracle_price_or_default ctx frm tgt with
      | .error e => .error e
      | .ok _price =>
        let xlm_liquidity := p.get_liquidity .XLM
        let usdc_liquidity := p.get_liquidity (.Custom "USDCSIM")
        let amount_u128 := toU128 amount
        let rp := swap_reserves xlm_liquidity usdc_liquidity from_asset
        let reserve_in := rp.1
        let reserve_out := rp.2
        let actual_out_e : Except Err Nat :=
          if 0 < reserve_in ∧ 0 < reserve_out then
            if U128_MOD ≤ amount_u128 * (10000 - LP_FEE_BPS) then
              .error (.abort "attempt to multiply with overflow")
            else if satAddU128 reserve_in (amm_after_fee amount_u128) = 0 then
              .error (.abort "Division by zero in AMM calculation")
            else .ok (amm_out reserve_in reserve_out amount_u128)
          else
            match oracle_price_or_default ctx frm tgt with
            | .error e => .error e
            | .ok price => .ok (amount_u128 * price / PRECISION)
        match actual_out_e with
        | .error e => .error e
        | .ok actual_out =>
          let out_amount := toI128 actual_out
          if out_amount ≤ 0 then .error (.abort "Output amount must be positive")
          else
            let fee_amount := amount_u128 * LP_FEE_BPS / 10000
            let fee_amount_i128 := toI128 fee_amount
            let theoretical_out :=
              if 0 < reserve_in ∧ 0 < reserve_out then
                theo_out reserve_in reserve_out amount_u128
              else amount_u128
            if 0 < theoretical_out ∧ theoretical_out < actual_out then
              .error (.abort "attempt to subtract with overflow")
            else if 0 < theoretical_out ∧
                ctx.max_slip < (theoretical_out - actual_out) * 10000 / theoretical_out then
              .error (.abort "Slippage exceeded")
            else
              match p.transfer_asset from_asset to_asset user amount with
              | .error e => .error e
              | .ok p1 =>
                let p2 :=
                  if 0 < reserve_in ∧ 0 < reserve_out then
                    apply_reserve_update p1 from_asset xlm_liquidity
                      usdc_liquidity (amount - fee_amount_i128) out_amount
                  else p1
                let p3 := if 0 < fee_amount_i128 then p2.add_lp_fees fee_amount_i128
                          else p2
                .ok (p3, out_amount)

/-! ## Batch executor (batch.rs) -/

/-- `MAX_BATCH_SIZE` from `batch.rs`. -/
def MAX_BATCH_SIZE : Nat := 10

/-- `BatchOperation` from `batch.rs`. -/
inductive BatchOperation
  | Swap (frm tgt : Sym) (amount : Int) (user : Addr)
  | AddLiquidity (xlm_amount usdc_amount : Int) (user : Addr)
  | RemoveLiquidity (xlm_amount usdc_amount : Int) (user : Addr)
  | MintToken (token : Sym) (dst : Addr) (amount : Int)
deriving DecidableEq

/-- `OperationResult` from `batch.rs`. -/
inductive OperationResult
  | Success (v : Int)
  | OpError (s : Sym)
deriving DecidableEq

/-- `BatchResult` from `batch.rs`. -/
structure BatchResult where
  results : List OperationResult
  operations_executed : Nat
  operations_failed : Nat
deriving DecidableEq

/-- `is_valid_token` from `batch.rs`: only `XLM` and `USDC-SIM`. -/
def is_valid_token (token : Sym) : Bool :=
  token == "XLM" || token == "USDC-SIM"

/-- `symbol_to_asset` from `batch.rs` (all non-XLM symbols become custom). -/
def batch_symbol_to_asset (sym : Sym) : Asset :=
  if sym = "XLM" then .XLM else .Custom sym

/-- `validate_operation` from `batch.rs`. -/
def validate_operation : BatchOperation → Except Sym Unit
  | .Swap frm tgt amount _user =>
    if amount ≤ 0 then .error "invalid_amount"
    else if frm = tgt then .error "same_token_swap"
    else if !is_valid_token frm || !is_valid_token tgt then .error "invalid_token"
    else .ok ()
  | .AddLiquidity xlm_amount usdc_amount _user =>
    if xlm_amount ≤ 0 ∨ usdc_amount ≤ 0 then .error "invalid_liquidity"
    else .ok ()
  | .RemoveLiquidity xlm_amount usdc_amount _user =>
    if xlm_amount < 0 ∨ usdc_amount < 0 then .error "negative_liquidity"
    else if xlm_amount = 0 ∧ usdc_amount = 0 then .error "zero_liquidity"
    else .ok ()
  | .MintToken token _dst amount =>
    if amount < 0 then .error "negative_mint"
    else if !is_valid_token token then .error "invalid_token"
    else .ok ()

/-- The per-operation loop of `validate_batch`. -/
def validate_list : List BatchOperation → Except Sym Unit
  | [] => .ok ()
  | op :: rest =>
    match validate_operation op with
    | .error e => .error e
    | .ok () => validate_list rest

/-- `validate_batch` from `batch.rs`. -/
def validate_batch (ops : List BatchOperation) : Except Sym Unit :=
  if MAX_BATCH_SIZE < ops.length then .error "batch_size_exceeded"
  else if ops.isEmpty then .error "empty_batch"
  else validate_list ops

/-- `execute_single_operation` from `batch.rs`.  Note that the
`AddLiquidity` arm of the source checks the depositor's balances and grows
the pool but performs no debit: the two balance keys it computes under the
comment `Deduct from user's balance` are never used. -/
def execute_single_operation (ctx : Ctx) (p : Portfolio) :
    BatchOperation → Except Err (Portfolio × Int)
  | .Swap frm tgt amount user =>
    let from_asset := batch_symbol_to_asset frm
    let balance := p.balance_of from_asset user
    if balance < amount then .error (.opError "insufficient_funds")
    else
      match perform_swap ctx p frm tgt amount user with
      | .error e => .error e
      | .ok (p1, out) => .ok (p1.record_trade user, out)
  | .AddLiquidity xlm_amount usdc_amount user =>
    let xlm_balance := p.balance_of .XLM user
    let usdc_balance := p.balance_of (.Custom "USDC-SIM") user
    if xlm_balance < xlm_amount ∨ usdc_balance < usdc_amount then
      .error (.opError "insufficient_funds")
    else
      let p1 := p.add_pool_liquidity xlm_amount usdc_amount
      let p2 := p1.record_lp_deposit user
      .ok (p2, xlm_amount + usdc_amount)
  | .RemoveLiquidity xlm_amount usdc_amount user =>
    match Portfolio.mint p .XLM user xlm_amount with
    | .error e => .error e
    | .ok p1 =>
      match Portfolio.mint p1 (.Custom "USDC-SIM") user usdc_amount with
      | .error e => .error e
      | .ok p2 => .ok (p2, xlm_amount + usdc_amount)
  | .MintToken token dst amount =>
    match Portfolio.mint p (batch_symbol_to_asset token) dst amount with
    | .error e => .error e
    | .ok p1 => .ok (p1, amount)

/-- The execution loop of `execute_batch_atomic`.  On an operation's
`Err(Symbol)` the source restores the snapshot into the in-place portfolio
and returns `Err("batch_failed")`; since the caller discards the portfolio
on `Err`, the error carries no state here.  A panic (`Err.abort`)
propagates and aborts the host call. -/
def batch_loop_atomic (ctx : Ctx) :
    Portfolio → BatchResult → List BatchOperation →
    Except Err (Portfolio × BatchResult)
  | p, acc, [] => .ok (p, acc)
  | p, acc, op :: rest =>
    match execute_single_operation ctx p op with
    | .ok (p', v) =>
      batch_loop_atomic ctx p'
        { acc with results := acc.results ++ [.Success v],
                   operations_executed := acc.operations_executed + 1 } rest
    | .error (.opError _) => .error (.opError "batch_failed")
    | .error (.abort m) => .error (.abort m)

/-- `execute_batch_atomic` from `batch.rs`. -/
def execute_batch_atomic (ctx : Ctx) (p : Portfolio)
    (ops : List BatchOperation) : Except Err (Portfolio × BatchResult) :=
  match validate_batch ops with
  | .error e => .error (.opError e)
  | .ok () => batch_loop_atomic ctx p ⟨[], 0, 0⟩ ops

/-- The execution loop of `execute_batch_best_effort`: recoverable errors
are recorded and execution continues; a panic aborts the host call. -/
def batch_loop_best_effort (ctx : Ctx) :
    Portfolio → BatchResult → List BatchOperation →
    Except Err (Portfolio × BatchResult)
  | p, acc, [] => .ok (p, acc)
  | p, acc, op :: rest =>
    match execute_single_operation ctx p op with
    | .ok (p', v) =>
      batch_loop_best_effort ctx p'
        { acc with results := acc.results ++ [.Success v],
                   operations_executed := acc.operations_executed + 1 } rest
    | .error (.opError e) =>
      batch_loop_best_effort ctx p
        { acc with results := acc.results ++ [.OpError e],
                   operations_failed := acc.operations_failed + 1 } rest
    | .error (.abort m) => .error (.abort m)

/-- `execute_batch_best_effort` from `batch.rs`. -/
def execute_batch_best_effort (ctx : Ctx) (p : Portfolio)
    (ops : List BatchOperation) : Except Err (Portfolio × BatchResult) :=
  match validate_batch ops with
  | .error e => .error (.opError e)
  | .ok () => batch_loop_best_effort ctx p ⟨[], 0, 0⟩ ops

/-! ## Contract entry points (counter/src/lib.rs) -/

/-- The persistent contract state: the portfolio blob, the rate-limit
counters, the oracle price store and the `MAX_SLIP` setting. -/
structure ContractState where
  portfolio : Portfolio
  rl : RlStore
  prices : PriceStore
  max_slip : Nat

/-- The environment snapshot handed to the trading/batch code at a given
ledger timestamp. -/
def ContractState.ctx (s : ContractState) (now : Nat) : Ctx :=
  ⟨s.prices, now, s.max_slip⟩

/-- The asset-selection pattern used throughout `lib.rs`:
`if token == "XLM" { XLM } else { Custom(token) }`. -/
def lib_symbol_asset (token : Sym) : Asset :=
  if token = "XLM" then .XLM else .Custom token

/-- `CounterContract::mint`. -/
def CounterContract.mint (s : ContractState) (token : Sym) (dst : Addr)
    (amount : Int) : Except Err ContractState :=
  match Portfolio.mint s.portfolio (lib_symbol_asset token) dst amount with
  | .error e => .error e
  | .ok p => .ok { s with portfolio := p }

/-- `CounterContract::swap`: rate-limit check, tier fee debit, the AMM swap,
then `record_transaction` — whose stats updates increment the user's trade
count and saturating-add the full input amount to the user's volume, which
is what advances the tier across swaps — and rate-limit recording.  The
transaction log, the `update_tier` tier cache (the tier is recomputed from
trade count and volume on every read) and the `award_first_trade` badge
touch only unmodelled fields. -/
def CounterContract.swap (s : ContractState) (now : Nat) (frm tgt : Sym)
    (amount : Int) (user : Addr) : Except Err (ContractState × Int) :=
  let user_tier := s.portfolio.get_user_tier user
  match check_swap_limit s.rl now user user_tier with
  | some _ => .error (.abort "RATELIMIT")
  | none =>
    let fee_bps := user_tier.effective_fee_bps
    let fee_amount := Int.tdiv (amount * (fee_bps : Int)) 10000
    let p1e : Except Err Portfolio :=
      if 0 < fee_amount then
        let fee_asset := lib_symbol_asset frm
        match Portfolio.debit s.portfolio fee_asset user fee_amount with
        | .error e => .error e
        | .ok pd => .ok (pd.collect_fee fee_amount)
      else .ok s.portfolio
    match p1e with
    | .error e => .error e
    | .ok p1 =>
      let swap_amount := amount - fee_amount
      match perform_swap (s.ctx now) p1 frm tgt swap_amount user with
      | .error e => .error e
      | .ok (p2, out_amount) =>
        .ok ({ s with
                portfolio :=
                  (p2.record_trade user).update_stats_on_trade user amount,
                rl := record_swap s.rl user now },
             out_amount)

/-- The Babylonian integer square-root loop of
`CounterContract::add_liquidity`, with the remaining iteration budget as
fuel (the source caps the loop at 100 body executions). -/
def babylonian_loop (product : Nat) : Nat → Nat → Nat → Nat
  | guess, _prev, 0 => guess
  | guess, prev, fuel + 1 =>
    if guess = prev then guess
    else
      let quotient := product / guess
      let g := (guess + quotient) / 2
      if g = 0 then 1
      else babylonian_loop product g guess fuel

/-- The first-provider share count of `CounterContract::add_liquidity`:
the Babylonian iteration started at `product` with at most 100 steps. -/
def babylonian_sqrt (product : Nat) : Nat :=
  babylonian_loop product product 0 100

/-- `CounterContract::add_liquidity`.  The badge bookkeeping
(`check_and_award_badges`) touches only unmodelled fields and is dropped. -/
def CounterContract.add_liquidity (s : ContractState) (now : Nat)
    (xlm_amount usdc_amount : Int) (user : Addr) :
    Except Err (ContractState × Int) :=
  if xlm_amount ≤ 0 then .error (.abort "XLM amount must be positive")
  else if usdc_amount ≤ 0 then .error (.abort "USDC amount must be positive")
  else
    let user_tier := s.portfolio.get_user_tier user
    match check_lp_limit s.rl now user user_tier with
    | some _ => .error (.abort "RATELIMIT")
    | none =>
      let current_xlm := s.portfolio.get_liquidity .XLM
      let current_usdc := s.portfolio.get_liquidity (.Custom "USDCSIM")
      let total_lp_tokens := s.portfolio.total_lp_tokens
      let user_xlm_balance := s.portfolio.balance_of .XLM user
      let user_usdc_balance := s.portfolio.balance_of (.Custom "USDCSIM") user
      if user_xlm_balance < xlm_amount then
        .error (.abort "Insufficient XLM balance")
      else if user_usdc_balance < usdc_amount then
        .error (.abort "Insufficient USDC balance")
      else
        let minted_e : Except Err Int :=
          if total_lp_tokens = 0 then
            let product := satMulU128 (toU128 xlm_amount) (toU128 usdc_amount)
            if product = 0 then .error (.abort "Product must be positive")
            else .ok (toI128 (babylonian_sqrt product))
          else
            let xlm_share :=
              if 0 < current_xlm then
                satMulU128 (toU128 xlm_amount) (toU128 total_lp_tokens) /
                  toU128 current_xlm
              else 0
            let usdc_share :=
              if 0 < current_usdc then
                satMulU128 (toU128 usdc_amount) (toU128 total_lp_tokens) /
                  toU128 current_usdc
              else 0
            .ok (min (toI128 xlm_share) (toI128 usdc_share))
        match minted_e with
        | .error e => .error e
        | .ok lp_tokens_minted =>
          if lp_tokens_minted ≤ 0 then
            .error (.abort "LP tokens minted must be positive")
          else
            match Portfolio.debit s.portfolio .XLM user xlm_amount with
            | .error e => .error e
            | .ok p1 =>
              match Portfolio.debit p1 (.Custom "USDCSIM") user usdc_amount with
              | .error e => .error e
              | .ok p2 =>
                let p3 := p2.add_pool_liquidity xlm_amount usdc_amount
                let pos :=
                  match p3.lp_positions user with
                  | some q =>
                    { q with
                      xlm_deposited := satAddI128 q.xlm_deposited xlm_amount,
                      usdc_deposited := satAddI128 q.usdc_deposited usdc_amount,
                      lp_tokens_minted :=
                        satAddI128 q.lp_tokens_minted lp_tokens_minted }
                  | none => ⟨xlm_amount, usdc_amount, lp_tokens_minted⟩
                let p4 := p3.set_lp_position user pos
                let p5 := p4.add_total_lp_tokens lp_tokens_minted
                let p6 := p5.record_lp_deposit user
                .ok ({ s with portfolio := p6,
                              rl := record_lp_op s.rl user now },
                     lp_tokens_minted)

/-- `CounterContract::remove_liquidity`. -/
def CounterContract.remove_liquidity (s : ContractState) (now : Nat)
    (lp_tokens : Int) (user : Addr) :
    Except Err (ContractState × Int × Int) :=
  if lp_tokens ≤ 0 then .error (.abort "LP tokens must be positive")
  else
    match s.portfolio.lp_positions user with
    | none => .error (.abort "User has no LP position")
    | some pos =>
      if pos.lp_tokens_minted < lp_tokens then
        .error (.abort "Insufficient LP tokens")
      else
        let current_xlm := s.portfolio.get_liquidity .XLM
        let current_usdc := s.portfolio.get_liquidity (.Custom "USDCSIM")
        let total_lp_tokens := s.portfolio.total_lp_tokens
        if total_lp_tokens ≤ 0 then .error (.abort "No LP tokens in pool")
        else
          let xlm_amount := toI128 (satMulU128 (toU128 lp_tokens)
            (toU128 current_xlm) / toU128 total_lp_tokens)
          let usdc_amount := toI128 (satMulU128 (toU128 lp_tokens)
            (toU128 current_usdc) / toU128 total_lp_tokens)
          if ¬(0 < xlm_amount ∧ 0 < usdc_amount) then
            .error (.abort "Amounts must be positive")
          else if Int.tdiv (satMulI128 pos.xlm_deposited 101) 100 < xlm_amount ∨
              Int.tdiv (satMulI128 pos.usdc_deposited 101) 100 < usdc_amount then
            .error (.abort "Cannot remove more than deposited")
          else
            let p1 := (s.portfolio.set_liquidity .XLM
              (satSubI128 current_xlm xlm_amount)).set_liquidity
              (.Custom "USDCSIM") (satSubI128 current_usdc usdc_amount)
            match Portfolio.mint p1 .XLM user xlm_amount with
            | .error e => .error e
            | .ok p2 =>
              match Portfolio.mint p2 (.Custom "USDCSIM") user usdc_amount with
              | .error e => .error e
              | .ok p3 =>
                let pos' : LPPosition :=
                  { lp_tokens_minted := satSubI128 pos.lp_tokens_minted lp_tokens,
                    xlm_deposited := satSubI128 pos.xlm_deposited xlm_amount,
                    usdc_deposited := satSubI128 pos.usdc_deposited usdc_amount }
                let p4 := p3.set_lp_position user pos'
                let p5 := p4.subtract_total_lp_tokens lp_tokens
                .ok ({ s with portfolio := p5,
                              rl := record_lp_op s.rl user now },
                     xlm_amount, usdc_amount)

/-- `CounterContract::execute_batch_atomic`: on any inner `Err` the
portfolio is not persisted and a fresh report with one failed operation is
returned; a panic aborts the whole call. -/
def CounterContract.execute_batch_atomic (s : ContractState) (now : Nat)
    (ops : List BatchOperation) : Except Err (ContractState × BatchResult) :=
  match SwapTrade.execute_batch_atomic (s.ctx now) s.portfolio ops with
  | .ok (p', res) => .ok ({ s with portfolio := p' }, res)
  | .error (.opError _) => .ok (s, ⟨[], 0, 1⟩)
  | .error (.abort m) => .error (.abort m)

/-- `CounterContract::execute_batch_best_effort`. -/
def CounterContract.execute_batch_best_effort (s : ContractState) (now : Nat)
    (ops : List BatchOperation) : Except Err (ContractState × BatchResult) :=
  match SwapTrade.execute_batch_best_effort (s.ctx now) s.portfolio ops with
  | .ok (p', res) => .ok ({ s with portfolio := p' }, res)
  | .error (.opError _) => .ok (s, ⟨[], 0, 1⟩)
  | .error (.abort m) => .error (.abort m)

/-! ## Operation sequences -/

/-- One external call into the engine, tagged with the ledger timestamp at
which the host executes it. -/
inductive Op
  | mint (token : Sym) (dst : Addr) (amount : Int)
  | swap (now : Nat) (frm tgt : Sym) (amount : Int) (user : Addr)
  | add_liquidity (now : Nat) (xlm_amount usdc_amount : Int) (user : Addr)
  | remove_liquidity (now : Nat) (lp_tokens : Int) (user : Addr)
  | batch_atomic (now : Nat) (ops : List BatchOperation)
  | batch_best_effort (now : Nat) (ops : List BatchOperation)

/-- Host-level execution of one call: on success the returned state is
persisted; on a panic or propagated error nothing is committed and the
pre-call state survives. -/
def step (s : ContractState) : Op → ContractState
  | .mint token dst amount =>
    match CounterContract.mint s token dst amount with
    | .ok s' => s'
    | .error _ => s
  | .swap now frm tgt amount user =>
    match CounterContract.swap s now frm tgt amount user with
    | .ok (s', _) => s'
    | .error _ => s
  | .add_liquidity now xlm_amount usdc_amount user =>
    match CounterContract.add_liquidity s now xlm_amount usdc_amount user with
    | .ok (s', _) => s'
    | .error _ => s
  | .remove_liquidity now lp_tokens user =>
    match CounterContract.remove_liquidity s now lp_tokens user with
    | .ok (s', _) => s'
    | .error _ => s
  | .batch_atomic now ops =>
    match CounterContract.execute_batch_atomic s now ops with
    | .ok (s', _) => s'
    | .error _ => s
  | .batch_best_effort now ops =>
    match CounterContract.execute_batch_best_effort s now ops with
    | .ok (s', _) => s'
    | .error _ => s

/-- Run a sequence of calls. -/
def runOps (s : ContractState) (ops : List Op) : ContractState :=
  ops.foldl step s

/-! ## Result accessors -/

/-- The value returned by a successful state-and-value operation. -/
def okValue {σ α : Type} (r : Except Err (σ × α)) : Option α :=
  match r with
  | .ok x => some x.2
  | .error _ => none

/-- The successor state of a successful state-and-value operation. -/
def okState {σ α : Type} (r : Except Err (σ × α)) : Option σ :=
  match r with
  | .ok x => some x.1
  | .error _ => none

/-- The no-negative-balances invariant of the spec. -/
def goodBalances (p : Portfolio) : Prop := ∀ u a, 0 ≤ p.balances u a

/-! ## Basic lemmas about the embedded operations -/

theorem get_liquidity_XLM (p : Portfolio) :
    p.get_liquidity .XLM = p.xlm_in_pool := rfl

theorem get_liquidity_USDCSIM (p : Portfolio) :
    p.get_liquidity (.Custom "USDCSIM") = p.usdc_in_pool := by
  simp [Portfolio.get_liquidity]

theorem balances_set_liquidity (p : Portfolio) (a : Asset) (v : Int) :
    (p.set_liquidity a v).balances = p.balances := by
  cases a with
  | XLM => rfl
  | Custom s => simp only [Portfolio.set_liquidity]; split <;> rfl

theorem balances_add_lp_fees (p : Portfolio) (v : Int) :
    (p.add_lp_fees v).balances = p.balances := by
  simp [Portfolio.add_lp_fees]

theorem balances_collect_fee (p : Portfolio) (v : Int) :
    (p.collect_fee v).balances = p.balances := by
  simp [Portfolio.collect_fee]

theorem balances_add_pool_liquidity (p : Portfolio) (x y : Int) :
    (p.add_pool_liquidity x y).balances = p.balances := by
  simp [Portfolio.add_pool_liquidity]

theorem balances_record_lp_deposit (p : Portfolio) (u : Addr) :
    (p.record_lp_deposit u).balances = p.balances := by
  simp [Portfolio.record_lp_deposit]

theorem balances_record_trade (p : Portfolio) (u : Addr) :
    (p.record_trade u).balances = p.balances := by
  simp [Portfolio.record_trade]

theorem balances_set_lp_position (p : Portfolio) (u : Addr) (q : LPPosition) :
    (p.set_lp_position u q).balances = p.balances := by
  simp [Portfolio.set_lp_position]

theorem balances_add_total_lp_tokens (p : Portfolio) (v : Int) :
    (p.add_total_lp_tokens v).balances = p.balances := by
  simp [Portfolio.add_total_lp_tokens]

theorem balances_subtract_total_lp_tokens (p : Portfolio) (v : Int) :
    (p.subtract_total_lp_tokens v).balances = p.balances := by
  simp [Portfolio.subtract_total_lp_tokens]

theorem balances_apply_reserve_update (p : Portfolio) (fa : Asset)
    (xl ul af out : Int) :
    (apply_reserve_update p fa xl ul af out).balances = p.balances := by
  simp only [apply_reserve_update]
  split <;> simp [balances_set_liquidity]

theorem satAddU128_pos {a b : Nat} (ha : 0 < a) : satAddU128 a b ≠ 0 := by
  simp only [satAddU128, U128_MAX, U128_MOD]
  omega

/-- Success shape of `Portfolio.transfer_asset`. -/
theorem transfer_asset_ok_shape {p : Portfolio} {fa ta : Asset} {user : Addr}
    {amount : Int} {p1 : Portfolio}
    (h : Portfolio.transfer_asset p fa ta user amount = .ok p1) :
    0 < amount ∧ amount ≤ p.balances user fa ∧
    p1 = { p with
      balances := updateB (updateB p.balances user fa
          (p.balances user fa - amount)) user ta
        (updateB p.balances user fa (p.balances user fa - amount) user ta +
          amount),
      balances_updated := satAddU32 p.balances_updated 2 } := by
  simp only [Portfolio.transfer_asset] at h
  split at h
  · exact absurd h (by simp)
  split at h
  · exact absurd h (by simp)
  rename_i h1 h2
  rw [Except.ok.injEq] at h
  exact ⟨by omega, by omega, h.symm⟩

/-- Success shape of `Portfolio.debit`. -/
theorem debit_ok_shape {p : Portfolio} {token : Asset} {frm : Addr}
    {amount : Int} {p1 : Portfolio}
    (h : Portfolio.debit p token frm amount = .ok p1) :
    0 < amount ∧ amount ≤ p.balances frm token ∧
    p1 = { p with
      balances := updateB p.balances frm token (p.balances frm token - amount),
      pnl := updateU p.pnl frm (satSubI128 (p.pnl frm) amount),
      balances_updated := satAddU32 p.balances_updated 1 } := by
  simp only [Portfolio.debit] at h
  split at h
  · exact absurd h (by simp)
  split at h
  · exact absurd h (by simp)
  rename_i h1 h2
  rw [Except.ok.injEq] at h
  exact ⟨by omega, by omega, h.symm⟩

/-- Success shape of `Portfolio.mint`. -/
theorem mint_ok_shape {p : Portfolio} {token : Asset} {dst : Addr}
    {amount : Int} {p1 : Portfolio}
    (h : Portfolio.mint p token dst amount = .ok p1) :
    0 ≤ amount ∧
    p1 = { p with
      balances := updateB p.balances dst token (p.balances dst token + amount),
      pnl := updateU p.pnl dst (p.pnl dst + amount),
      balances_updated := satAddU32 p.balances_updated 1 } := by
  simp only [Portfolio.mint] at h
  split at h
  · exact absurd h (by simp)
  rename_i h1
  rw [Except.ok.injEq] at h
  exact ⟨by omega, h.symm⟩

/-- On success, `perform_swap` validated its inputs, moved the input amount
between the user's two asset balances, and produced the final portfolio by
the reserve update and LP-fee accrual applied to the transfer result. -/
theorem perform_swap_ok_shape {ctx : Ctx} {p : Portfolio} {frm tgt : Sym}
    {amount : Int} {user : Addr} {p' : Portfolio} {out : Int}
    (h : perform_swap ctx p frm tgt amount user = .ok (p', out)) :
    ∃ fa ta p1,
      symbol_to_asset frm = some fa ∧ symbol_to_asset tgt = some ta ∧
      0 < amount ∧ frm ≠ tgt ∧ 0 < out ∧
      p.transfer_asset fa ta user amount = .ok p1 ∧
      (let ri := (swap_reserves p.xlm_in_pool p.usdc_in_pool fa).1
       let ro := (swap_reserves p.xlm_in_pool p.usdc_in_pool fa).2
       let fee_i := toI128 (toU128 amount * LP_FEE_BPS / 10000)
       let p2 := if 0 < ri ∧ 0 < ro then
           apply_reserve_update p1 fa p.xlm_in_pool p.usdc_in_pool
             (amount - fee_i) out
         else p1
       p' = (if 0 < fee_i then p2.add_lp_fees fee_i else p2) ∧
       ((0 < ri ∧ 0 < ro) →
         toU128 amount * (10000 - LP_FEE_BPS) < U128_MOD ∧
         out = toI128 (amm_out ri ro (toU128 amount)))) := by
  simp only [perform_swap, get_liquidity_XLM, get_liquidity_USDCSIM] at h
  split at h
  · exact absurd h (by simp)
  split at h
  · exact absurd h (by simp)
  split at h
  · exact absurd h (by simp)
  · exact absurd h (by simp)
  rename_i hamt hne o1 o2 fa ta hfa hta
  split at h
  · exact absurd h (by simp)
  rename_i price hprice
  by_cases hri : 0 < (swap_reserves p.xlm_in_pool p.usdc_in_pool fa).1 ∧
      0 < (swap_reserves p.xlm_in_pool p.usdc_in_pool fa).2
  · simp only [eq_true hri, if_true] at h
    by_cases hovf : U128_MOD ≤ toU128 amount * (10000 - LP_FEE_BPS)
    · rw [if_pos hovf] at h
      simp only [] at h
      exact absurd h (by simp)
    rw [if_neg hovf] at h
    rw [if_neg (satAddU128_pos hri.1)] at h
    simp only [] at h
    split at h
    · exact absurd h (by simp)
    rename_i hout
    split at h
    · exact absurd h (by simp)
    rename_i hsub
    split at h
    · exact absurd h (by simp)
    rename_i hslip
    rcases htr : p.transfer_asset fa ta user amount with e | p1
    · rw [htr] at h; exact absurd h (by simp)
    rw [htr] at h
    simp only [] at h
    rw [Except.ok.injEq, Prod.mk.injEq] at h
    obtain ⟨h1, h2⟩ := h
    have hpos : 0 < out := by rw [← h2]; omega
    rw [h2] at h1
    refine ⟨fa, ta, p1, hfa, hta, by omega, hne, hpos, htr, ?_,
      fun _ => ⟨Nat.lt_of_not_le hovf, h2.symm⟩⟩
    simp only [eq_true hri, if_true]
    exact h1.symm
  · simp only [eq_false hri, if_false] at h
    split at h
    · exact absurd h (by simp)
    rename_i hout
    split at h
    · exact absurd h (by simp)
    rename_i hsub
    split at h
    · exact absurd h (by simp)
    rename_i hslip
    rcases htr : p.transfer_asset fa ta user amount with e | p1
    · rw [htr] at h; exact absurd h (by simp)
    rw [htr] at h
    simp only [] at h
    rw [Except.ok.injEq, Prod.mk.injEq] at h
    obtain ⟨h1, h2⟩ := h
    have hpos : 0 < out := by rw [← h2]; omega
    refine ⟨fa, ta, p1, hfa, hta, by omega, hne, hpos, htr, ?_,
      fun hc => absurd hc hri⟩
    simp only [eq_false hri, if_false]
    exact h1.symm

/-! ## Concrete scenarios used by the verification -/

/-- An empty price store: no quote for any pair. -/
def emptyPrices : PriceStore := fun _ => none

/-- Environment with no quotes, timestamp 0 and the default `MAX_SLIP`. -/
def defaultCtx : Ctx := ⟨emptyPrices, 0, 10000⟩

/-- A pool with reserves (1000, 1000) whose user 9 holds 400 XLM. -/
def poolThousand : Portfolio :=
  { Portfolio.new with
      xlm_in_pool := 1000
      usdc_in_pool := 1000
      balances := updateB Portfolio.new.balances 9 .XLM 400 }

/-- Contract state in which user 7 holds 100 XLM and 100 USDC-SIM and the
pool is empty. -/
def batchLpState : ContractState :=
  { portfolio := { Portfolio.new with
      balances := updateB (updateB Portfolio.new.balances 7 .XLM 100) 7
        (.Custom "USDC-SIM") 100 }
    rl := freshRl
    prices := emptyPrices
    max_slip := 10000 }

/-- Contract state in which user 7 holds 2 XLM and 4 USDCSIM and no LP
shares exist. -/
def emptyPoolTwoFour : ContractState :=
  { portfolio := { Portfolio.new with
      balances := updateB (updateB Portfolio.new.balances 7 .XLM 2) 7
        (.Custom "USDCSIM") 4 }
    rl := freshRl
    prices := emptyPrices
    max_slip := 10000 }

/-- Contract state with pool reserves (1000, 1000) and user 0 holding
1000 XLM. -/
def swapUserState : ContractState :=
  { portfolio := { Portfolio.new with
      xlm_in_pool := 1000
      usdc_in_pool := 1000
      balances := updateB Portfolio.new.balances 0 .XLM 1000 }
    rl := freshRl
    prices := emptyPrices
    max_slip := 10000 }

/-- The completely empty contract state. -/
def zeroState : ContractState :=
  { portfolio := Portfolio.new
    rl := freshRl
    prices := emptyPrices
    max_slip := 10000 }

/-! ## Claim theorems -/

set_option maxRecDepth 100000 in
/-- C10 counterexample: with reserves (1000, 1000) and the 0.3% fee,
`perform_swap` of 200 input units returns 165 output units, not the 160 the
claim states. -/
theorem first_swap_output_165_not_160 :
    okValue (perform_swap defaultCtx poolThousand "XLM" "USDCSIM" 200 9) =
      some 165 ∧ (165 : Int) ≠ 160 := by
  exact ⟨by decide, by decide⟩

set_option maxRecDepth 100000 in
/-- C10 (amended): with reserves (1000, 1000) and the 0.3% fee, swapping
200 units in yields exactly 165 units out, and a second swap of 200 units
against the updated reserves yields exactly 118 units, strictly less than
the first swap of equal size. -/
theorem cpmm_outputs_and_depletion :
    okValue (perform_swap defaultCtx poolThousand "XLM" "USDCSIM" 200 9) =
      some 165 ∧
    (okState (perform_swap defaultCtx poolThousand "XLM" "USDCSIM" 200 9)).bind
        (fun p1 => okValue (perform_swap defaultCtx p1 "XLM" "USDCSIM" 200 9)) =
      some 118 ∧
    (118 : Int) < 165 := by
  exact ⟨by decide, by decide, by decide⟩

set_option maxRecDepth 100000 in
/-- C7: a batch `AddLiquidity` operation that reports success increases the
pool reserves by the deposited amounts but leaves the depositor's balances
untouched — the source checks the balances and computes the balance keys
but never debits them, contradicting both the spec and its own
`Deduct from user's balance` comment.  User 7 deposits (100, 100) from
balances (100, 100): the report shows one executed and zero failed
operations, the reserves become (100, 100), yet the balances remain
(100, 100) instead of (0, 0). -/
theorem batch_add_liquidity_skips_debit :
    (CounterContract.execute_batch_best_effort batchLpState 0
        [.AddLiquidity 100 100 7]).toOption.map
      (fun r => (r.2.operations_executed, r.2.operations_failed,
                 r.1.portfolio.balances 7 .XLM,
                 r.1.portfolio.balances 7 (.Custom "USDC-SIM"),
                 r.1.portfolio.xlm_in_pool, r.1.portfolio.usdc_in_pool)) =
      some (1, 0, 100, 100, 100, 100) := by
  decide

set_option maxRecDepth 100000 in
/-- C6 counterexample: `add_liquidity(2, 4)` into an empty pool mints 3
shares although `isqrt(2 * 4) = 2` — the capped Babylonian loop of the
source oscillates between 2 and 3 for product 8 and the iteration cap lands
on 3. -/
theorem add_liquidity_isqrt_cex :
    okValue (CounterContract.add_liquidity emptyPoolTwoFour 0 2 4 7) = some 3 ∧
    Nat.sqrt (2 * 4) = 2 ∧ (3 : Int) ≠ 2 := by
  exact ⟨by decide, (Nat.eq_sqrt.mpr (by omega)).symm, by decide⟩

set_option maxRecDepth 100000 in
/-- C1 counterexample: swapping 1000 XLM against a (1000, 1000) pool as a
fresh (Novice) user returns `amountOut = 498`, but the user's USDCSIM
balance rises from 0 to 997 — the swap credits the output asset with the
post-fee input amount, not with the computed `amountOut`. -/
theorem swap_credits_input_not_amountOut_cex :
    (CounterContract.swap swapUserState 0 "XLM" "USDCSIM" 1000 0).toOption.map
      (fun r => (r.2, r.1.portfolio.balances 0 (.Custom "USDCSIM"))) =
      some (498, 997) ∧
    swapUserState.portfolio.balances 0 (.Custom "USDCSIM") = 0 ∧
    (997 : Int) ≠ 0 + 498 := by
  exact ⟨by decide, by decide, by decide⟩

/-- C4: in an atomic batch that passes static validation and then fails at
runtime, the wrapper returns the pre-batch state unchanged — every balance,
both pool reserves, the LP share total and positions, and the trade/fee
counters are exactly their pre-batch values — and the returned report has
`operations_failed > 0`. -/
theorem atomic_batch_rollback (s : ContractState) (now : Nat)
    (ops : List BatchOperation) (e : Sym)
    (_hv : validate_batch ops = .ok ())
    (hf : SwapTrade.execute_batch_atomic (s.ctx now) s.portfolio ops =
      .error (.opError e)) :
    ∃ s' r, CounterContract.execute_batch_atomic s now ops = .ok (s', r) ∧
      (∀ u a, s'.portfolio.balances u a = s.portfolio.balances u a) ∧
      s'.portfolio.xlm_in_pool = s.portfolio.xlm_in_pool ∧
      s'.portfolio.usdc_in_pool = s.portfolio.usdc_in_pool ∧
      s'.portfolio.total_lp_tokens = s.portfolio.total_lp_tokens ∧
      (∀ u, s'.portfolio.lp_positions u = s.portfolio.lp_positions u) ∧
      (∀ u, s'.portfolio.trades u = s.portfolio.trades u) ∧
      s'.portfolio.trades_executed = s.portfolio.trades_executed ∧
      s'.portfolio.total_fees_collected = s.portfolio.total_fees_collected ∧
      s'.portfolio.lp_fees_accumulated = s.portfolio.lp_fees_accumulated ∧
      0 < r.operations_failed := by
  refine ⟨s, ⟨[], 0, 1⟩, ?_, fun u a => rfl, rfl, rfl, rfl, fun u => rfl,
    fun u => rfl, rfl, rfl, rfl, Nat.one_pos⟩
  simp only [CounterContract.execute_batch_atomic, hf]

set_option maxRecDepth 100000 in
/-- C4 witness: the batch `[MintToken XLM 50 to user 3, Swap 100 XLM]`
passes validation, the mint succeeds, and the swap fails at runtime for
insufficient funds; the wrapper rolls everything back. -/
theorem atomic_batch_rollback_witness :
    validate_batch [.MintToken "XLM" 3 50, .Swap "XLM" "USDC-SIM" 100 3] =
      .ok () ∧
    (∃ s' r, CounterContract.execute_batch_atomic zeroState 0
        [.MintToken "XLM" 3 50, .Swap "XLM" "USDC-SIM" 100 3] = .ok (s', r) ∧
      (∀ u a, s'.portfolio.balances u a = zeroState.portfolio.balances u a) ∧
      s'.portfolio.xlm_in_pool = zeroState.portfolio.xlm_in_pool ∧
      s'.portfolio.usdc_in_pool = zeroState.portfolio.usdc_in_pool ∧
      s'.portfolio.total_lp_tokens = zeroState.portfolio.total_lp_tokens ∧
      (∀ u, s'.portfolio.lp_positions u = zeroState.portfolio.lp_positions u) ∧
      (∀ u, s'.portfolio.trades u = zeroState.portfolio.trades u) ∧
      s'.portfolio.trades_executed = zeroState.portfolio.trades_executed ∧
      s'.portfolio.total_fees_collected =
        zeroState.portfolio.total_fees_collected ∧
      s'.portfolio.lp_fees_accumulated =
        zeroState.portfolio.lp_fees_accumulated ∧
      0 < r.operations_failed) :=
  ⟨by rfl,
   atomic_batch_rollback zeroState 0 _ "batch_failed" (by rfl) (by rfl)⟩


/-- Success shape of `CounterContract.swap`: the rate limit passed, the tier
fee was debited (when positive), the AMM swap ran on the remainder, and the
rate limiter recorded the swap. -/
theorem contract_swap_ok_shape {s : ContractState} {now : Nat} {frm tgt : Sym}
    {amount : Int} {user : Addr} {s' : ContractState} {out : Int}
    (h : CounterContract.swap s now frm tgt amount user = .ok (s', out)) :
    check_swap_limit s.rl now user (s.portfolio.get_user_tier user) = none ∧
    (let fee := Int.tdiv
        (amount * ((s.portfolio.get_user_tier user).effective_fee_bps : Int))
        10000
     ∃ p1 p2,
       ((0 < fee ∧ ∃ pd, Portfolio.debit s.portfolio (lib_symbol_asset frm)
            user fee = .ok pd ∧ p1 = pd.collect_fee fee) ∨
        (¬0 < fee ∧ p1 = s.portfolio)) ∧
       perform_swap (s.ctx now) p1 frm tgt (amount - fee) user = .ok (p2, out) ∧
       s' = { s with
               portfolio :=
                 (p2.record_trade user).update_stats_on_trade user amount,
               rl := record_swap s.rl user now }) := by
  simp only [CounterContract.swap] at h
  split at h
  · exact absurd h (by simp)
  rename_i hrl
  by_cases hfee : 0 < Int.tdiv
      (amount * ((s.portfolio.get_user_tier user).effective_fee_bps : Int))
      10000
  · simp only [eq_true hfee, if_true] at h
    rcases hd : Portfolio.debit s.portfolio (lib_symbol_asset frm) user
        (Int.tdiv (amount *
          ((s.portfolio.get_user_tier user).effective_fee_bps : Int)) 10000)
      with e | pd
    · rw [hd] at h; exact absurd h (by simp)
    rw [hd] at h
    simp only [] at h
    rcases hps : perform_swap (s.ctx now) (pd.collect_fee
        (Int.tdiv (amount *
          ((s.portfolio.get_user_tier user).effective_fee_bps : Int)) 10000))
        frm tgt (amount - Int.tdiv (amount *
          ((s.portfolio.get_user_tier user).effective_fee_bps : Int)) 10000)
        user with e | pr
    · rw [hps] at h; exact absurd h (by simp)
    rw [hps] at h
    simp only [] at h
    rw [Except.ok.injEq, Prod.mk.injEq] at h
    obtain ⟨h1, h2⟩ := h
    subst h2
    refine ⟨hrl, _, pr.1, .inl ⟨hfee, pd, hd, rfl⟩, ?_, h1.symm⟩
    rw [hps]
  · simp only [eq_false hfee, if_false] at h
    rcases hps : perform_swap (s.ctx now) s.portfolio frm tgt
        (amount - Int.tdiv (amount *
          ((s.portfolio.get_user_tier user).effective_fee_bps : Int)) 10000)
        user with e | pr
    · rw [hps] at h; exact absurd h (by simp)
    rw [hps] at h
    simp only [] at h
    rw [Except.ok.injEq, Prod.mk.injEq] at h
    obtain ⟨h1, h2⟩ := h
    subst h2
    refine ⟨hrl, _, pr.1, .inr ⟨hfee, rfl⟩, ?_, h1.symm⟩
    rw [hps]



theorem fees_set_liquidity (p : Portfolio) (a : Asset) (v : Int) :
    (p.set_liquidity a v).total_fees_collected = p.total_fees_collected := by
  cases a with
  | XLM => rfl
  | Custom s => simp only [Portfolio.set_liquidity]; split <;> rfl

theorem fees_apply_reserve_update (p : Portfolio) (fa : Asset)
    (xl ul af out : Int) :
    (apply_reserve_update p fa xl ul af out).total_fees_collected =
      p.total_fees_collected := by
  simp only [apply_reserve_update]
  split <;> simp [fees_set_liquidity]

theorem fees_add_lp_fees (p : Portfolio) (v : Int) :
    (p.add_lp_fees v).total_fees_collected = p.total_fees_collected := by
  simp [Portfolio.add_lp_fees]

theorem balances_update_stats (p : Portfolio) (u : Addr) (v : Int) :
    (p.update_stats_on_trade u v).balances = p.balances := by
  simp [Portfolio.update_stats_on_trade]

theorem fees_record_trade (p : Portfolio) (u : Addr) :
    (p.record_trade u).total_fees_collected = p.total_fees_collected := by
  simp [Portfolio.record_trade]

theorem fees_update_stats (p : Portfolio) (u : Addr) (v : Int) :
    (p.update_stats_on_trade u v).total_fees_collected =
      p.total_fees_collected := by
  simp [Portfolio.update_stats_on_trade]

theorem get_liquidity_record_trade (p : Portfolio) (u : Addr) (a : Asset) :
    (p.record_trade u).get_liquidity a = p.get_liquidity a := by
  cases a with
  | XLM => rfl
  | Custom sym => rfl

theorem get_liquidity_update_stats (p : Portfolio) (u : Addr) (v : Int)
    (a : Asset) :
    (p.update_stats_on_trade u v).get_liquidity a = p.get_liquidity a := by
  cases a with
  | XLM => rfl
  | Custom sym => rfl

/-- `perform_swap` never changes the protocol-fee counter. -/
theorem perform_swap_fees {ctx : Ctx} {p : Portfolio} {frm tgt : Sym}
    {amount : Int} {user : Addr} {p' : Portfolio} {out : Int}
    (h : perform_swap ctx p frm tgt amount user = .ok (p', out)) :
    p'.total_fees_collected = p.total_fees_collected := by
  obtain ⟨fa, ta, p1, _, _, _, _, _, htr, hshape⟩ := perform_swap_ok_shape h
  obtain ⟨hp', _⟩ := hshape
  obtain ⟨_, _, hp1⟩ := transfer_asset_ok_shape htr
  subst hp1
  rw [hp']
  split <;> split <;>
    simp [fees_add_lp_fees, fees_apply_reserve_update]

theorem tier_fee_table :
    UserTier.effective_fee_bps .Novice = 30 ∧
    UserTier.effective_fee_bps .Trader = 25 ∧
    UserTier.effective_fee_bps .Expert = 20 ∧
    UserTier.effective_fee_bps .Whale = 15 := by
  refine ⟨rfl, rfl, rfl, rfl⟩

/-- C8: on every successful swap the fee collected from the user is exactly
`floor(amount * bps / 10000)` where `bps` depends only on the user's tier,
and the tier table is Novice 30, Trader 25, Expert 20, Whale 15 basis
points; the division is the truncating integer division of the source
(`Int.tdiv`), which agrees with `floor` on these non-negative operands. -/
theorem tier_fee_floor (s : ContractState) (now : Nat) (frm tgt : Sym)
    (amount : Int) (user : Addr) (s' : ContractState) (out : Int)
    (hamt : 0 < amount)
    (hf0 : 0 ≤ s.portfolio.total_fees_collected)
    (hcap : s.portfolio.total_fees_collected + amount ≤ I128_MAX)
    (h : CounterContract.swap s now frm tgt amount user = .ok (s', out)) :
    (UserTier.effective_fee_bps .Novice = 30 ∧
     UserTier.effective_fee_bps .Trader = 25 ∧
     UserTier.effective_fee_bps .Expert = 20 ∧
     UserTier.effective_fee_bps .Whale = 15) ∧
    s'.portfolio.total_fees_collected = s.portfolio.total_fees_collected +
      amount * ((s.portfolio.get_user_tier user).effective_fee_bps : Int) /
        10000 := by
  obtain ⟨hrl, p1, p2, hp1, hps, hs'⟩ := contract_swap_ok_shape h
  refine ⟨tier_fee_table, ?_⟩
  set bps := ((s.portfolio.get_user_tier user).effective_fee_bps : Int) with hbps
  have hbr : 0 ≤ bps ∧ bps ≤ 10000 := by
    cases hsn : s.portfolio.get_user_tier user <;>
      simp [hbps, hsn, UserTier.effective_fee_bps]
  have hfee_eq : Int.tdiv (amount * bps) 10000 = amount * bps / 10000 :=
    Int.tdiv_eq_ediv (mul_nonneg (by omega) hbr.1) (by omega)
  have hfee_nonneg : 0 ≤ amount * bps / 10000 :=
    Int.ediv_nonneg (mul_nonneg (by omega) hbr.1) (by omega)
  have hfee_le : amount * bps / 10000 ≤ amount := by
    calc amount * bps / 10000 ≤ amount * 10000 / 10000 :=
          Int.ediv_le_ediv (by omega)
            (mul_le_mul_of_nonneg_left hbr.2 (le_of_lt hamt))
      _ = amount := Int.mul_ediv_cancel _ (by omega)
  have hfees2 : p2.total_fees_collected = p1.total_fees_collected :=
    perform_swap_fees hps
  have hs'p : s'.portfolio.total_fees_collected = p2.total_fees_collected := by
    rw [hs']
    show ((p2.record_trade user).update_stats_on_trade
      user amount).total_fees_collected = p2.total_fees_collected
    rw [fees_update_stats, fees_record_trade]
  rcases hp1 with ⟨hpos, pd, hd, hp1eq⟩ | ⟨hneg, hp1eq⟩
  · obtain ⟨_, _, hpd⟩ := debit_ok_shape hd
    rw [hs'p, hfees2, hp1eq, hpd]
    show satAddI128 s.portfolio.total_fees_collected _ = _
    rw [hfee_eq]
    simp only [satAddI128, I128_MAX, I128_MIN] at *
    omega
  · rw [hs'p, hfees2, hp1eq]
    rw [hfee_eq] at hneg
    omega



theorem ok_of_okState_okValue {σ α : Type} {r : Except Err (σ × α)}
    {s : σ} {v : α} (h1 : okState r = some s) (h2 : okValue r = some v) :
    r = .ok (s, v) := by
  cases r with
  | error e => simp [okState] at h1
  | ok x =>
    simp only [okState, Option.some.injEq] at h1
    simp only [okValue, Option.some.injEq] at h2
    rw [← h1, ← h2]

set_option maxRecDepth 1000000 in
/-- C8 witness: a Novice user swapping 1000 XLM pays exactly
`floor(1000 * 30 / 10000) = 3` into the fee counter. -/
theorem tier_fee_floor_witness :
    ∃ s' : ContractState,
      okState (CounterContract.swap swapUserState 0 "XLM" "USDCSIM" 1000 0) =
        some s' ∧
      s'.portfolio.total_fees_collected =
        swapUserState.portfolio.total_fees_collected +
          1000 * ((swapUserState.portfolio.get_user_tier 0).effective_fee_bps :
            Int) / 10000 := by
  obtain ⟨s', hs'⟩ : ∃ s',
      okState (CounterContract.swap swapUserState 0 "XLM" "USDCSIM" 1000 0) =
        some s' := ⟨_, rfl⟩
  have hv : okValue (CounterContract.swap swapUserState 0 "XLM" "USDCSIM"
      1000 0) = some 498 := by decide
  have h := tier_fee_floor swapUserState 0 "XLM" "USDCSIM" 1000 0 s' 498
    (by decide) (by decide) (by decide) (ok_of_okState_okValue hs' hv)
  exact ⟨s', hs', h.2⟩



theorem toU128_of_nonneg {x : Int} (h0 : 0 ≤ x) (h1 : x ≤ I128_MAX) :
    toU128 x = x.toNat := by
  simp only [toU128, U128_MOD, I128_MAX] at *
  rw [Int.emod_eq_of_lt h0 (by omega)]

theorem toI128_of_lt {n : Nat} (h : n < 2 ^ 127) : toI128 n = (n : Int) := by
  simp only [toI128, U128_MOD]
  rw [Nat.mod_eq_of_lt (by omega)]
  rw [if_pos h]

theorem satMulU128_of_le {a b : Nat} (h : a * b ≤ U128_MAX) :
    satMulU128 a b = a * b := min_eq_left h

theorem satAddU128_of_le {a b : Nat} (h : a + b ≤ U128_MAX) :
    satAddU128 a b = a + b := min_eq_left h

/-- Pool with both reserves at `i128::MAX`; user 9 holds 10 XLM. -/
def hugePool : Portfolio :=
  { Portfolio.new with
      xlm_in_pool := 2 ^ 127 - 1
      usdc_in_pool := 2 ^ 127 - 1
      balances := updateB Portfolio.new.balances 9 .XLM 10 }

set_option maxRecDepth 1000000 in
/-- C2 counterexample: swapping 5 into a pool with both reserves at
`i128::MAX` succeeds and returns 1, but the claim's pure constant-product
formula `reserveOut * amountInAfterFee / (reserveIn + amountInAfterFee)`
gives 3 at the same input — the source computes the numerator with
`saturating_mul`, which caps `reserveOut * 4` at `u128::MAX`. -/
theorem amm_formula_saturating_cex :
    okValue (perform_swap defaultCtx hugePool "XLM" "USDCSIM" 5 9) =
      some 1 ∧
    ((swap_reserves hugePool.xlm_in_pool hugePool.usdc_in_pool .XLM).2 *
        (Int.toNat 5 * (10000 - 30) / 10000) /
      ((swap_reserves hugePool.xlm_in_pool hugePool.usdc_in_pool .XLM).1 +
        Int.toNat 5 * (10000 - 30) / 10000) : Nat) = 3 ∧
    (1 : Nat) ≠ 3 := by
  exact ⟨by decide, by decide, by decide⟩

/-- C2 (amended): on every successful `perform_swap` with both reserves
strictly positive and in `i128` range and the input in `i128` range, the
after-fee product fits in `u128` (the unchecked multiply did not panic) and
the returned output is the constant-product value computed with `u128`
saturating multiplication and addition,
`saturating_mul(reserveOut, amountInAfterFee) /
saturating_add(reserveIn, amountInAfterFee)` with
`amountInAfterFee = a * (10000 - 30) / 10000`; whenever the numerator
product and the denominator sum also fit in `u128` this equals the pure
formula `reserveOut * amountInAfterFee / (reserveIn + amountInAfterFee)`,
all divisions truncating. -/
theorem perform_swap_amm_formula (ctx : Ctx) (p : Portfolio) (frm tgt : Sym)
    (amount : Int) (user : Addr) (p' : Portfolio) (out : Int) (fa : Asset)
    (hfa : symbol_to_asset frm = some fa)
    (hx : 0 < p.xlm_in_pool) (hxm : p.xlm_in_pool ≤ I128_MAX)
    (hu : 0 < p.usdc_in_pool) (hum : p.usdc_in_pool ≤ I128_MAX)
    (ham : amount ≤ I128_MAX)
    (h : perform_swap ctx p frm tgt amount user = .ok (p', out)) :
    Int.toNat amount * (10000 - 30) < U128_MOD ∧
    out = toI128 (satMulU128
        (swap_reserves p.xlm_in_pool p.usdc_in_pool fa).2
        (Int.toNat amount * (10000 - 30) / 10000) /
      satAddU128 (swap_reserves p.xlm_in_pool p.usdc_in_pool fa).1
        (Int.toNat amount * (10000 - 30) / 10000)) ∧
    ((swap_reserves p.xlm_in_pool p.usdc_in_pool fa).2 *
        (Int.toNat amount * (10000 - 30) / 10000) ≤ U128_MAX →
      (swap_reserves p.xlm_in_pool p.usdc_in_pool fa).1 +
        (Int.toNat amount * (10000 - 30) / 10000) ≤ U128_MAX →
      out = (((swap_reserves p.xlm_in_pool p.usdc_in_pool fa).2 *
          (Int.toNat amount * (10000 - 30) / 10000) /
        ((swap_reserves p.xlm_in_pool p.usdc_in_pool fa).1 +
          Int.toNat amount * (10000 - 30) / 10000) : Nat) : Int)) := by
  obtain ⟨fa', ta, p1, hfa', hta, hamt, hne, hout, htr, hshape⟩ :=
    perform_swap_ok_shape h
  rw [hfa] at hfa'
  obtain rfl : fa = fa' := by injection hfa'
  obtain ⟨hp', hform⟩ := hshape
  have hxu : toU128 p.xlm_in_pool = p.xlm_in_pool.toNat :=
    toU128_of_nonneg (by omega) hxm
  have huu : toU128 p.usdc_in_pool = p.usdc_in_pool.toNat :=
    toU128_of_nonneg (by omega) hum
  have hri : 0 < (swap_reserves p.xlm_in_pool p.usdc_in_pool fa).1 ∧
      0 < (swap_reserves p.xlm_in_pool p.usdc_in_pool fa).2 := by
    simp only [swap_reserves]
    split <;> simp only [hxu, huu] <;> omega
  have hau : toU128 amount = amount.toNat := toU128_of_nonneg (by omega) ham
  obtain ⟨hguard, hform'⟩ := hform hri
  rw [hau] at hform' hguard
  set ri := (swap_reserves p.xlm_in_pool p.usdc_in_pool fa).1 with hri_def
  set ro := (swap_reserves p.xlm_in_pool p.usdc_in_pool fa).2 with hro_def
  have hafe : amm_after_fee amount.toNat = amount.toNat * (10000 - 30) / 10000 := by
    simp [amm_after_fee, LP_FEE_BPS]
  refine ⟨by simpa [LP_FEE_BPS] using hguard, ?_, ?_⟩
  · rw [hform']
    simp only [amm_out, hafe]
  · intro hfit1 hfit2
    have hamm : amm_out ri ro amount.toNat =
        ro * (amount.toNat * (10000 - 30) / 10000) /
          (ri + amount.toNat * (10000 - 30) / 10000) := by
      rw [amm_out, hafe, satMulU128_of_le hfit1, satAddU128_of_le hfit2]
    have hxm' : p.xlm_in_pool ≤ 2 ^ 127 - 1 := by
      simpa [I128_MAX] using hxm
    have hum' : p.usdc_in_pool ≤ 2 ^ 127 - 1 := by
      simpa [I128_MAX] using hum
    have hro_max : ro ≤ 2 ^ 127 - 1 := by
      rw [hro_def]
      simp only [swap_reserves]
      split <;> simp only [hxu, huu] <;> omega
    have hout_le : amm_out ri ro amount.toNat ≤ ro := by
      rw [hamm]
      calc ro * (amount.toNat * (10000 - 30) / 10000) /
            (ri + amount.toNat * (10000 - 30) / 10000)
          ≤ ro * (ri + amount.toNat * (10000 - 30) / 10000) /
            (ri + amount.toNat * (10000 - 30) / 10000) := by
            exact Nat.div_le_div_right (Nat.mul_le_mul_left _ (by omega))
        _ = ro := Nat.mul_div_cancel _ (by omega)
    rw [hform', toI128_of_lt (by omega), hamm]


set_option maxRecDepth 1000000 in
/-- C2 witness: both reserves at `i128::MAX`, input 5: the saturating
constant-product value is `min((2^127-1)*4, u128::MAX) / (2^127-1+4) = 1`,
the value the swap returns. -/
theorem perform_swap_amm_formula_witness :
    ∃ p' : Portfolio,
      okState (perform_swap defaultCtx hugePool "XLM" "USDCSIM" 5 9) =
        some p' ∧
      (1 : Int) = toI128 (satMulU128
          (swap_reserves hugePool.xlm_in_pool hugePool.usdc_in_pool .XLM).2
          (Int.toNat 5 * (10000 - 30) / 10000) /
        satAddU128
          (swap_reserves hugePool.xlm_in_pool hugePool.usdc_in_pool .XLM).1
          (Int.toNat 5 * (10000 - 30) / 10000)) := by
  obtain ⟨p', hp'⟩ : ∃ p',
      okState (perform_swap defaultCtx hugePool "XLM" "USDCSIM" 5 9) =
        some p' := ⟨_, rfl⟩
  have hv : okValue (perform_swap defaultCtx hugePool "XLM" "USDCSIM" 5 9) =
      some 1 := by decide
  refine ⟨p', hp', ?_⟩
  exact (perform_swap_amm_formula defaultCtx hugePool "XLM" "USDCSIM" 5 9
    p' 1 .XLM rfl (by decide) (by decide) (by decide) (by decide)
    (by decide) (ok_of_okState_okValue hp' hv)).2.1



theorem check_swap_limit_novice (store : RlStore) (now : Nat) (user : Addr) :
    check_swap_limit store now user .Novice =
      (if 5 ≤ store user "swap" (now / 3600 * 3600) then
        some ⟨store user "swap" (now / 3600 * 3600), 5,
          TimeWindow.cooldown_ms ⟨now / 3600 * 3600, 3600⟩ now⟩
      else none) := by
  simp [check_swap_limit, RateLimitConfig.for_tier, TimeWindow.hourly, U32_MAX]

/-- C5: for a fresh Novice account, the first five swap-limit checks
within one hour window (each accepted swap recorded) all pass; a sixth
check in the same window fails with `used = limit = 5` and a cooldown of
`(windowStart + windowDuration - now) * 1000` milliseconds (the source
clamps this to zero once the window has passed, which cannot happen while
`now` is still inside the window); a check at a time in a later hour
window passes again. -/
theorem novice_rate_limit_boundary (u : Addr) (t1 t2 t3 t4 t5 t6 t7 hr : Nat)
    (h1 : t1 / 3600 = hr) (h2 : t2 / 3600 = hr) (h3 : t3 / 3600 = hr)
    (h4 : t4 / 3600 = hr) (h5 : t5 / 3600 = hr) (h6 : t6 / 3600 = hr)
    (h7 : hr < t7 / 3600) :
    (let s1 := record_swap freshRl u t1
     let s2 := record_swap s1 u t2
     let s3 := record_swap s2 u t3
     let s4 := record_swap s3 u t4
     let s5 := record_swap s4 u t5
     check_swap_limit freshRl t1 u .Novice = none ∧
     check_swap_limit s1 t2 u .Novice = none ∧
     check_swap_limit s2 t3 u .Novice = none ∧
     check_swap_limit s3 t4 u .Novice = none ∧
     check_swap_limit s4 t5 u .Novice = none ∧
     check_swap_limit s5 t6 u .Novice =
       some ⟨5, 5, (hr * 3600 + 3600 - t6) * 1000⟩ ∧
     check_swap_limit s5 t7 u .Novice = none) := by
  intro s1 s2 s3 s4 s5
  have w1 : t1 / 3600 * 3600 = hr * 3600 := by omega
  have w2 : t2 / 3600 * 3600 = hr * 3600 := by omega
  have w3 : t3 / 3600 * 3600 = hr * 3600 := by omega
  have w4 : t4 / 3600 * 3600 = hr * 3600 := by omega
  have w5 : t5 / 3600 * 3600 = hr * 3600 := by omega
  have w6 : t6 / 3600 * 3600 = hr * 3600 := by omega
  have c0 : freshRl u "swap" (hr * 3600) = 0 := rfl
  have c1 : s1 u "swap" (hr * 3600) = 1 := by
    simp [s1, record_swap, TimeWindow.hourly, w1, freshRl]
  have c2 : s2 u "swap" (hr * 3600) = 2 := by
    simp [s2, record_swap, TimeWindow.hourly, w2, c1]
  have c3 : s3 u "swap" (hr * 3600) = 3 := by
    simp [s3, record_swap, TimeWindow.hourly, w3, c2]
  have c4 : s4 u "swap" (hr * 3600) = 4 := by
    simp [s4, record_swap, TimeWindow.hourly, w4, c3]
  have c5 : s5 u "swap" (hr * 3600) = 5 := by
    simp [s5, record_swap, TimeWindow.hourly, w5, c4]
  have hw7 : t7 / 3600 * 3600 ≠ hr * 3600 := by
    intro hc; omega
  have c7 : s5 u "swap" (t7 / 3600 * 3600) = 0 := by
    simp [s5, s4, s3, s2, s1, record_swap, TimeWindow.hourly, w1, w2, w3, w4,
      w5, eq_false hw7, freshRl]
  refine ⟨?_, ?_, ?_, ?_, ?_, ?_, ?_⟩
  · rw [check_swap_limit_novice, w1, if_neg (by omega)]
  · rw [check_swap_limit_novice, w2, c1, if_neg (by omega)]
  · rw [check_swap_limit_novice, w3, c2, if_neg (by omega)]
  · rw [check_swap_limit_novice, w4, c3, if_neg (by omega)]
  · rw [check_swap_limit_novice, w5, c4, if_neg (by omega)]
  · rw [check_swap_limit_novice, w6, c5, if_pos (by omega)]
    have hc : TimeWindow.cooldown_ms ⟨hr * 3600, 3600⟩ t6 =
        (hr * 3600 + 3600 - t6) * 1000 := by
      simp only [TimeWindow.cooldown_ms]
      rw [if_neg (by omega)]
    rw [hc]
  · rw [check_swap_limit_novice, c7, if_neg (by omega)]

set_option maxRecDepth 100000 in
/-- C5 witness: five swaps at t = 5400 (hour window 1), the sixth check
fails with cooldown 1800000 ms, and a check at t = 7200 passes. -/
theorem novice_rate_limit_boundary_witness :
    (5400 : Nat) / 3600 = 1 ∧ (1 : Nat) < 7200 / 3600 ∧
    (let s1 := record_swap freshRl 0 5400
     let s2 := record_swap s1 0 5400
     let s3 := record_swap s2 0 5400
     let s4 := record_swap s3 0 5400
     let s5 := record_swap s4 0 5400
     check_swap_limit freshRl 5400 0 .Novice = none ∧
     check_swap_limit s1 5400 0 .Novice = none ∧
     check_swap_limit s2 5400 0 .Novice = none ∧
     check_swap_limit s3 5400 0 .Novice = none ∧
     check_swap_limit s4 5400 0 .Novice = none ∧
     check_swap_limit s5 5400 0 .Novice =
       some ⟨5, 5, (1 * 3600 + 3600 - 5400) * 1000⟩ ∧
     check_swap_limit s5 7200 0 .Novice = none) :=
  ⟨by decide, by decide,
   novice_rate_limit_boundary 0 5400 5400 5400 5400 5400 5400 7200 1
     (by decide) (by decide) (by decide) (by decide) (by decide) (by decide)
     (by decide)⟩



theorem add_liquidity_ok_shape {s : ContractState} {now : Nat} {x y : Int}
    {user : Addr} {s' : ContractState} {minted : Int}
    (h : CounterContract.add_liquidity s now x y user = .ok (s', minted)) :
    0 < x ∧ 0 < y ∧ 0 < minted ∧
    (s.portfolio.total_lp_tokens = 0 →
      minted = toI128 (babylonian_sqrt (satMulU128 (toU128 x) (toU128 y)))) ∧
    (s.portfolio.total_lp_tokens ≠ 0 →
      minted = min
        (toI128 (if 0 < s.portfolio.xlm_in_pool then
          satMulU128 (toU128 x) (toU128 s.portfolio.total_lp_tokens) /
            toU128 s.portfolio.xlm_in_pool
          else 0))
        (toI128 (if 0 < s.portfolio.usdc_in_pool then
          satMulU128 (toU128 y) (toU128 s.portfolio.total_lp_tokens) /
            toU128 s.portfolio.usdc_in_pool
          else 0))) := by
  simp only [CounterContract.add_liquidity, get_liquidity_XLM,
    get_liquidity_USDCSIM] at h
  split at h
  · exact absurd h (by simp)
  rename_i hx
  split at h
  · exact absurd h (by simp)
  rename_i hy
  split at h
  · exact absurd h (by simp)
  rename_i hrl
  split at h
  · exact absurd h (by simp)
  rename_i hbx
  split at h
  · exact absurd h (by simp)
  rename_i hby
  by_cases hT : s.portfolio.total_lp_tokens = 0
  · simp only [eq_true hT, if_true] at h
    split at h
    · exact absurd h (by simp)
    rename_i v heq
    split at heq
    · exact absurd heq (by simp)
    rename_i hprod
    rw [Except.ok.injEq] at heq
    subst heq
    split at h
    · exact absurd h (by simp)
    rename_i hm
    rcases hd1 : Portfolio.debit s.portfolio .XLM user x with e | p1
    · rw [hd1] at h; exact absurd h (by simp)
    rw [hd1] at h
    simp only [] at h
    rcases hd2 : Portfolio.debit p1 (.Custom "USDCSIM") user y with e | p2
    · rw [hd2] at h; exact absurd h (by simp)
    rw [hd2] at h
    simp only [] at h
    rw [Except.ok.injEq, Prod.mk.injEq] at h
    obtain ⟨-, h2⟩ := h
    subst h2
    exact ⟨by omega, by omega, by omega, fun _ => rfl,
      fun hc => absurd hT hc⟩
  · simp only [eq_false hT, if_false] at h
    set m := min
      (toI128 (if 0 < s.portfolio.xlm_in_pool then
        satMulU128 (toU128 x) (toU128 s.portfolio.total_lp_tokens) /
          toU128 s.portfolio.xlm_in_pool
        else 0))
      (toI128 (if 0 < s.portfolio.usdc_in_pool then
        satMulU128 (toU128 y) (toU128 s.portfolio.total_lp_tokens) /
          toU128 s.portfolio.usdc_in_pool
        else 0)) with hmdef
    split at h
    · exact absurd h (by simp)
    rename_i hm
    rcases hd1 : Portfolio.debit s.portfolio .XLM user x with e | p1
    · rw [hd1] at h; exact absurd h (by simp)
    rw [hd1] at h
    simp only [] at h
    rcases hd2 : Portfolio.debit p1 (.Custom "USDCSIM") user y with e | p2
    · rw [hd2] at h; exact absurd h (by simp)
    rw [hd2] at h
    simp only [] at h
    rw [Except.ok.injEq, Prod.mk.injEq] at h
    obtain ⟨-, h2⟩ := h
    subst h2
    exact ⟨by omega, by omega, by omega, fun hc => absurd hc hT,
      fun _ => rfl⟩



/-- C6 (amended): a successful `add_liquidity` mints a strictly positive
share count; when the total share count is zero the minted amount is
exactly the result of the source's 100-iteration Babylonian loop applied
to `amountA * amountB` (which may exceed `isqrt` by one when the iteration
oscillates at the cap, e.g. product 8 gives 3); otherwise it is exactly
`min(saturating_mul(amountA, totalShares) / reserveA,
saturating_mul(amountB, totalShares) / reserveB)` — an empty side
contributing a zero share — with truncating `u128` division, which, when
the two products also fit in `u128` and the operands are positive and in
`i128` range, reduces to the pure
`min(amountA * totalShares / reserveA, amountB * totalShares / reserveB)`. -/
theorem add_liquidity_minted_shares (s : ContractState) (now : Nat)
    (x y : Int) (user : Addr) (s' : ContractState) (minted : Int)
    (h : CounterContract.add_liquidity s now x y user = .ok (s', minted)) :
    0 < minted ∧
    (s.portfolio.total_lp_tokens = 0 →
      minted = toI128 (babylonian_sqrt (satMulU128 (toU128 x) (toU128 y)))) ∧
    (s.portfolio.total_lp_tokens ≠ 0 →
      minted = min
        (toI128 (if 0 < s.portfolio.xlm_in_pool then
          satMulU128 (toU128 x) (toU128 s.portfolio.total_lp_tokens) /
            toU128 s.portfolio.xlm_in_pool
          else 0))
        (toI128 (if 0 < s.portfolio.usdc_in_pool then
          satMulU128 (toU128 y) (toU128 s.portfolio.total_lp_tokens) /
            toU128 s.portfolio.usdc_in_pool
          else 0))) ∧
    (∀ (_hpx : 0 < s.portfolio.xlm_in_pool)
       (_hxm : s.portfolio.xlm_in_pool ≤ I128_MAX)
       (_hpu : 0 < s.portfolio.usdc_in_pool)
       (_hum : s.portfolio.usdc_in_pool ≤ I128_MAX)
       (_ht : 0 < s.portfolio.total_lp_tokens)
       (_htm : s.portfolio.total_lp_tokens ≤ I128_MAX)
       (_hxc : x ≤ I128_MAX) (_hyc : y ≤ I128_MAX)
       (_hf1 : x.toNat * s.portfolio.total_lp_tokens.toNat ≤ U128_MAX)
       (_hf2 : y.toNat * s.portfolio.total_lp_tokens.toNat ≤ U128_MAX)
       (_hc1 : x.toNat * s.portfolio.total_lp_tokens.toNat /
          s.portfolio.xlm_in_pool.toNat < 2 ^ 127)
       (_hc2 : y.toNat * s.portfolio.total_lp_tokens.toNat /
          s.portfolio.usdc_in_pool.toNat < 2 ^ 127),
      minted = min
        ((x.toNat * s.portfolio.total_lp_tokens.toNat /
          s.portfolio.xlm_in_pool.toNat : Nat) : Int)
        ((y.toNat * s.portfolio.total_lp_tokens.toNat /
          s.portfolio.usdc_in_pool.toNat : Nat) : Int)) := by
  obtain ⟨hx, hy, hm, hzero, helse⟩ := add_liquidity_ok_shape h
  refine ⟨hm, hzero, helse, ?_⟩
  intro hpx hxm hpu hum ht htm hxc hyc hf1 hf2 hc1 hc2
  have hform := helse (by omega)
  rw [hform]
  rw [if_pos hpx, if_pos hpu]
  rw [toU128_of_nonneg (by omega) hxc, toU128_of_nonneg (by omega) hyc,
    toU128_of_nonneg (by omega) htm, toU128_of_nonneg (by omega) hxm,
    toU128_of_nonneg (by omega) hum]
  rw [satMulU128_of_le hf1, satMulU128_of_le hf2]
  rw [toI128_of_lt hc1, toI128_of_lt hc2]

/-- Pool with both reserves at `i128::MAX` and `2^126` LP shares
outstanding; user 8 holds 100 of each asset. -/
def hugeLpState : ContractState :=
  { portfolio := { Portfolio.new with
      xlm_in_pool := 2 ^ 127 - 1
      usdc_in_pool := 2 ^ 127 - 1
      total_lp_tokens := 2 ^ 126
      balances := updateB (updateB Portfolio.new.balances 8 .XLM 100) 8
        (.Custom "USDCSIM") 100 }
    rl := freshRl
    prices := emptyPrices
    max_slip := 10000 }

set_option maxRecDepth 1000000 in
/-- C6 witness: depositing (100, 100) into a pool with reserves at
`i128::MAX` and `2^126` shares outstanding mints
`min(u128::MAX, 100 * 2^126) / (2^127 - 1) = 2` shares on each side — the
saturating value the theorem states, while the pure formula of the original
claim would give `100 * 2^126 / (2^127 - 1) = 50`. -/
theorem add_liquidity_minted_shares_witness :
    ∃ s' : ContractState,
      okState (CounterContract.add_liquidity hugeLpState 0 100 100 8) =
        some s' ∧
      0 < (2 : Int) ∧
      (2 : Int) = min
        (toI128 (if 0 < hugeLpState.portfolio.xlm_in_pool then
          satMulU128 (toU128 100)
              (toU128 hugeLpState.portfolio.total_lp_tokens) /
            toU128 hugeLpState.portfolio.xlm_in_pool
          else 0))
        (toI128 (if 0 < hugeLpState.portfolio.usdc_in_pool then
          satMulU128 (toU128 100)
              (toU128 hugeLpState.portfolio.total_lp_tokens) /
            toU128 hugeLpState.portfolio.usdc_in_pool
          else 0)) ∧
      (100 : Nat) * 2 ^ 126 / (2 ^ 127 - 1) = 50 := by
  obtain ⟨s', hs'⟩ : ∃ s',
      okState (CounterContract.add_liquidity hugeLpState 0 100 100 8) =
        some s' := ⟨_, rfl⟩
  have hv : okValue (CounterContract.add_liquidity hugeLpState 0 100 100 8) =
      some 2 := by decide
  have hth := add_liquidity_minted_shares hugeLpState 0 100 100 8 s' 2
    (ok_of_okState_okValue hs' hv)
  exact ⟨s', hs', hth.1, hth.2.2.1 (by decide), by decide⟩



theorem updateB_same (b : Addr → Asset → Int) (u : Addr) (a : Asset)
    (v : Int) : updateB b u a v u a = v := by
  simp [updateB]

theorem updateB_other {u : Addr} {a : Asset} {u' : Addr} {a' : Asset}
    (b : Addr → Asset → Int) (v : Int) (h : ¬(u' = u ∧ a' = a)) :
    updateB b u a v u' a' = b u' a' := by
  simp only [updateB, if_neg h]

theorem symbol_to_asset_cases {sym : Sym} {a : Asset}
    (h : symbol_to_asset sym = some a) :
    (sym = "XLM" ∧ a = .XLM) ∨
    (sym = "USDCSIM" ∧ a = .Custom "USDCSIM") := by
  simp only [symbol_to_asset] at h
  split at h
  · rename_i hs
    left
    refine ⟨hs, ?_⟩
    injection h with h'
    exact h'.symm
  split at h
  · rename_i hs2; right
    refine ⟨hs2, ?_⟩
    injection h with h'
    rw [← h', hs2]
  · exact absurd h (by simp)

theorem symbol_to_asset_lib {sym : Sym} {a : Asset}
    (h : symbol_to_asset sym = some a) : lib_symbol_asset sym = a := by
  rcases symbol_to_asset_cases h with ⟨hs, ha⟩ | ⟨hs, ha⟩ <;>
    simp [lib_symbol_asset, hs, ha]

theorem symbol_to_asset_distinct {frm tgt : Sym} {fa ta : Asset}
    (hne : frm ≠ tgt) (hfa : symbol_to_asset frm = some fa)
    (hta : symbol_to_asset tgt = some ta) : fa ≠ ta := by
  rcases symbol_to_asset_cases hfa with ⟨hs1, ha1⟩ | ⟨hs1, ha1⟩ <;>
    rcases symbol_to_asset_cases hta with ⟨hs2, ha2⟩ | ⟨hs2, ha2⟩
  · exact absurd (hs1.trans hs2.symm) hne
  · subst ha1; subst ha2; intro hc; cases hc
  · subst ha1; subst ha2; intro hc; cases hc
  · exact absurd (hs1.trans hs2.symm) hne

theorem get_liquidity_add_lp_fees (p : Portfolio) (v : Int) (a : Asset) :
    (p.add_lp_fees v).get_liquidity a = p.get_liquidity a := by
  cases a with
  | XLM => rfl
  | Custom s => rfl

theorem apply_XLM_get_in (p : Portfolio) (xl ul af out : Int) :
    (apply_reserve_update p .XLM xl ul af out).get_liquidity .XLM =
      satAddI128 xl af := by
  simp [apply_reserve_update, Portfolio.set_liquidity, Portfolio.get_liquidity]

theorem apply_XLM_get_out (p : Portfolio) (xl ul af out : Int) :
    (apply_reserve_update p .XLM xl ul af out).get_liquidity
      (.Custom "USDCSIM") = satSubI128 ul out := by
  simp [apply_reserve_update, Portfolio.set_liquidity, Portfolio.get_liquidity]

theorem apply_USD_get_in (p : Portfolio) (xl ul af out : Int) :
    (apply_reserve_update p (.Custom "USDCSIM") xl ul af out).get_liquidity
      (.Custom "USDCSIM") = satAddI128 ul af := by
  simp [apply_reserve_update, Portfolio.set_liquidity, Portfolio.get_liquidity]

theorem apply_USD_get_out (p : Portfolio) (xl ul af out : Int) :
    (apply_reserve_update p (.Custom "USDCSIM") xl ul af out).get_liquidity
      .XLM = satSubI128 xl out := by
  simp [apply_reserve_update, Portfolio.set_liquidity, Portfolio.get_liquidity]

theorem swap_fee_zero_of_nonpos {amount fee : Int} {bps : Nat}
    (hbps : 0 < bps ∧ bps ≤ 30)
    (hfee : fee = Int.tdiv (amount * (bps : Int)) 10000)
    (hneg : ¬0 < fee) (hswap : 0 < amount - fee) : fee = 0 := by
  rcases le_or_lt 0 amount with hge | hlt
  · have : 0 ≤ fee := by
      rw [hfee, Int.tdiv_eq_ediv (mul_nonneg hge (by omega)) (by omega)]
      exact Int.ediv_nonneg (mul_nonneg hge (by omega)) (by omega)
    omega
  · exfalso
    have hneg' : amount * (bps : Int) = -((-amount) * (bps : Int)) := by ring
    have htd : fee = -(Int.tdiv ((-amount) * (bps : Int)) 10000) := by
      rw [hfee, hneg', Int.neg_tdiv]
    have hnn : 0 ≤ (-amount) * (bps : Int) :=
      mul_nonneg (by omega) (by omega)
    rw [Int.tdiv_eq_ediv hnn (by omega)] at htd
    set q := (-amount) * (bps : Int) / 10000 with hq
    have hqle : q ≤ (-amount) * 30 / 10000 :=
      Int.ediv_le_ediv (by omega)
        (mul_le_mul_of_nonneg_left (by exact_mod_cast hbps.2) (by omega))
    have hqlt : (-amount) * 30 / 10000 < -amount := by
      rw [Int.ediv_lt_iff_lt_mul (by omega)]
      nlinarith
    omega



/-- C1 (amended): on every successful `CounterContract::swap`, the user's
input-asset balance decreases by exactly the full input amount (tier fee
included); the user's output-asset balance increases by the swap input net
of the tier fee (`amount - fee`), NOT by the returned `amountOut`; and when
both pool reserves are positive and in `i128` range, the input-side reserve
is saturating-increased by the post-LP-fee input and the output-side
reserve saturating-decreased by `amountOut`. -/
theorem swap_balance_and_reserve_update (s : ContractState) (now : Nat)
    (frm tgt : Sym) (amount : Int) (user : Addr) (s' : ContractState)
    (out : Int)
    (h : CounterContract.swap s now frm tgt amount user = .ok (s', out)) :
    (let fee := Int.tdiv
        (amount * ((s.portfolio.get_user_tier user).effective_fee_bps : Int))
        10000
     s'.portfolio.balances user (lib_symbol_asset frm) =
       s.portfolio.balances user (lib_symbol_asset frm) - amount ∧
     s'.portfolio.balances user (lib_symbol_asset tgt) =
       s.portfolio.balances user (lib_symbol_asset tgt) + (amount - fee) ∧
     (∀ (_hpx : 0 < s.portfolio.xlm_in_pool)
        (_hxm : s.portfolio.xlm_in_pool ≤ I128_MAX)
        (_hpu : 0 < s.portfolio.usdc_in_pool)
        (_hum : s.portfolio.usdc_in_pool ≤ I128_MAX),
       s'.portfolio.get_liquidity (lib_symbol_asset frm) =
         satAddI128 (s.portfolio.get_liquidity (lib_symbol_asset frm))
           ((amount - fee) -
             toI128 (toU128 (amount - fee) * LP_FEE_BPS / 10000)) ∧
       s'.portfolio.get_liquidity (lib_symbol_asset tgt) =
         satSubI128 (s.portfolio.get_liquidity (lib_symbol_asset tgt)) out)) := by
  intro fee
  obtain ⟨hrl, p1, p2, hp1, hps, hs'⟩ := contract_swap_ok_shape h
  obtain ⟨fa, ta, p1t, hfa, hta, hswpos, hne, houtpos, htr, hshape⟩ :=
    perform_swap_ok_shape hps
  obtain ⟨hp2eq, hform⟩ := hshape
  have hfd : fee = Int.tdiv
      (amount * ((s.portfolio.get_user_tier user).effective_fee_bps : Int))
      10000 := rfl
  simp only [← hfd] at hp1 hps hswpos htr hp2eq hform
  have hlibf : lib_symbol_asset frm = fa := symbol_to_asset_lib hfa
  have hlibt : lib_symbol_asset tgt = ta := symbol_to_asset_lib hta
  have hfata : fa ≠ ta := symbol_to_asset_distinct hne hfa hta
  obtain ⟨htpos, htle, hp1t⟩ := transfer_asset_ok_shape htr
  -- tier fee basics
  have hbps : 0 < (s.portfolio.get_user_tier user).effective_fee_bps ∧
      (s.portfolio.get_user_tier user).effective_fee_bps ≤ 30 := by
    cases s.portfolio.get_user_tier user <;>
      simp [UserTier.effective_fee_bps]
  -- p1 relations (balances, pools) in the two fee branches
  have hp1rel : (p1.balances user fa =
        s.portfolio.balances user fa - fee ∧
      (∀ u a, ¬(u = user ∧ a = fa) → p1.balances u a =
        s.portfolio.balances u a)) ∧
      p1.xlm_in_pool = s.portfolio.xlm_in_pool ∧
      p1.usdc_in_pool = s.portfolio.usdc_in_pool := by
    rcases hp1 with ⟨hfpos, pd, hd, hp1def⟩ | ⟨hfneg, hp1def⟩
    · obtain ⟨hdpos, hdle, hpd⟩ := debit_ok_shape hd
      rw [hlibf] at hpd
      subst hp1def
      subst hpd
      refine ⟨⟨?_, ?_⟩, rfl, rfl⟩
      · show updateB s.portfolio.balances user fa _ user fa = _
        rw [updateB_same]
      · intro u a hu
        show updateB s.portfolio.balances user fa _ u a = _
        rw [updateB_other _ _ hu]
    · have hzero : fee = 0 :=
        swap_fee_zero_of_nonpos hbps rfl hfneg hswpos
      subst hp1def
      refine ⟨⟨by rw [hzero]; ring_nf, fun u a _ => rfl⟩, rfl, rfl⟩
  obtain ⟨⟨hb1, hbother⟩, hpx1, hpu1⟩ := hp1rel
  -- balances of the perform_swap result
  have hbal2 : p2.balances = p1t.balances := by
    rw [hp2eq]
    split <;> split <;>
      simp [balances_add_lp_fees, balances_apply_reserve_update]
  have hsp : s'.portfolio.balances = p2.balances := by
    rw [hs']
    show ((p2.record_trade user).update_stats_on_trade user amount).balances =
      p2.balances
    rw [balances_update_stats, balances_record_trade]
  have hspl : ∀ a, s'.portfolio.get_liquidity a = p2.get_liquidity a := by
    intro a
    rw [hs']
    show ((p2.record_trade user).update_stats_on_trade
      user amount).get_liquidity a = p2.get_liquidity a
    rw [get_liquidity_update_stats, get_liquidity_record_trade]
  -- the transfer moved (amount - fee) between the two assets of p1
  have hp1tfa : p1t.balances user fa = p1.balances user fa - (amount - fee) := by
    subst hp1t
    show updateB _ user ta _ user fa = _
    rw [updateB_other _ _ (by simp [hfata])]
    rw [updateB_same]
  have hp1tta : p1t.balances user ta = p1.balances user ta + (amount - fee) := by
    subst hp1t
    show updateB _ user ta _ user ta = _
    rw [updateB_same]
    rw [updateB_other _ _ (by simp [Ne.symm hfata])]
  refine ⟨?_, ?_, ?_⟩
  · rw [hsp, hbal2, hlibf, hp1tfa, hb1]
    ring
  · rw [hsp, hbal2, hlibt, hp1tta,
      hbother user ta (by simp [Ne.symm hfata])]
  · intro hpx hxm hpu hum
    have hxu : toU128 p1.xlm_in_pool = p1.xlm_in_pool.toNat := by
      rw [hpx1]; exact toU128_of_nonneg (by omega) hxm
    have huu : toU128 p1.usdc_in_pool = p1.usdc_in_pool.toNat := by
      rw [hpu1]; exact toU128_of_nonneg (by omega) hum
    have hri : 0 < (swap_reserves p1.xlm_in_pool p1.usdc_in_pool fa).1 ∧
        0 < (swap_reserves p1.xlm_in_pool p1.usdc_in_pool fa).2 := by
      simp only [swap_reserves]
      split <;> simp only [hxu, huu] <;>
        simp only [hpx1, hpu1] <;> omega
    rw [hspl (lib_symbol_asset frm), hspl (lib_symbol_asset tgt), hp2eq]
    simp only [eq_true hri, if_true]
    have hliq : ∀ a, ((if 0 < toI128 (toU128 (amount - fee) * LP_FEE_BPS / 10000)
        then (apply_reserve_update p1t fa p1.xlm_in_pool p1.usdc_in_pool
          ((amount - fee) - toI128 (toU128 (amount - fee) * LP_FEE_BPS / 10000))
          out).add_lp_fees
            (toI128 (toU128 (amount - fee) * LP_FEE_BPS / 10000))
        else apply_reserve_update p1t fa p1.xlm_in_pool p1.usdc_in_pool
          ((amount - fee) - toI128 (toU128 (amount - fee) * LP_FEE_BPS / 10000))
          out) : Portfolio).get_liquidity a =
        (apply_reserve_update p1t fa p1.xlm_in_pool p1.usdc_in_pool
          ((amount - fee) - toI128 (toU128 (amount - fee) * LP_FEE_BPS / 10000))
          out).get_liquidity a := by
      intro a
      split
      · rw [get_liquidity_add_lp_fees]
      · rfl
    rw [hliq (lib_symbol_asset frm), hliq (lib_symbol_asset tgt)]
    rcases symbol_to_asset_cases hfa with ⟨hs1, ha1⟩ | ⟨hs1, ha1⟩
    · -- frm is XLM, so tgt is USDCSIM
      rcases symbol_to_asset_cases hta with ⟨hs2, ha2⟩ | ⟨hs2, ha2⟩
      · exact absurd (hs1.trans hs2.symm) hne
      subst ha1
      rw [hlibf, hlibt, ha2]
      rw [apply_XLM_get_in, apply_XLM_get_out]
      constructor
      · simp only [get_liquidity_XLM, get_liquidity_USDCSIM, hpx1, hpu1]
      · simp only [get_liquidity_XLM, get_liquidity_USDCSIM, hpx1, hpu1]
    · -- frm is USDCSIM, so tgt is XLM
      rcases symbol_to_asset_cases hta with ⟨hs2, ha2⟩ | ⟨hs2, ha2⟩
      swap
      · exact absurd (hs1.trans hs2.symm) hne
      subst ha1
      rw [hlibf, hlibt, ha2]
      rw [apply_USD_get_in, apply_USD_get_out]
      constructor
      · simp only [get_liquidity_XLM, get_liquidity_USDCSIM, hpx1, hpu1]
      · simp only [get_liquidity_XLM, get_liquidity_USDCSIM, hpx1, hpu1]



set_option maxRecDepth 1000000 in
/-- C1 witness: a Novice swapping 1000 XLM against a (1000, 1000) pool is
debited 1000 XLM, credited 997 USDCSIM, and the reserves move to
(1995, 502) while the returned `amountOut` is 498. -/
theorem swap_balance_and_reserve_update_witness :
    ∃ s' : ContractState,
      okState (CounterContract.swap swapUserState 0 "XLM" "USDCSIM" 1000 0) =
        some s' ∧
      s'.portfolio.balances 0 (lib_symbol_asset "XLM") =
        swapUserState.portfolio.balances 0 (lib_symbol_asset "XLM") - 1000 ∧
      s'.portfolio.balances 0 (lib_symbol_asset "USDCSIM") =
        swapUserState.portfolio.balances 0 (lib_symbol_asset "USDCSIM") +
          (1000 - Int.tdiv (1000 *
            ((swapUserState.portfolio.get_user_tier 0).effective_fee_bps :
              Int)) 10000) ∧
      s'.portfolio.get_liquidity (lib_symbol_asset "XLM") =
        satAddI128
          (swapUserState.portfolio.get_liquidity (lib_symbol_asset "XLM"))
          ((1000 - Int.tdiv (1000 *
            ((swapUserState.portfolio.get_user_tier 0).effective_fee_bps :
              Int)) 10000) -
            toI128 (toU128 (1000 - Int.tdiv (1000 *
              ((swapUserState.portfolio.get_user_tier 0).effective_fee_bps :
                Int)) 10000) * LP_FEE_BPS / 10000)) ∧
      s'.portfolio.get_liquidity (lib_symbol_asset "USDCSIM") =
        satSubI128
          (swapUserState.portfolio.get_liquidity (lib_symbol_asset "USDCSIM"))
          498 := by
  obtain ⟨s', hs'⟩ : ∃ s',
      okState (CounterContract.swap swapUserState 0 "XLM" "USDCSIM" 1000 0) =
        some s' := ⟨_, rfl⟩
  have hv : okValue (CounterContract.swap swapUserState 0 "XLM" "USDCSIM"
      1000 0) = some 498 := by decide
  have hth := swap_balance_and_reserve_update swapUserState 0 "XLM" "USDCSIM"
    1000 0 s' 498 (ok_of_okState_okValue hs' hv)
  obtain ⟨ha, hb, hc⟩ := hth
  obtain ⟨hc1, hc2⟩ := hc (by decide) (by decide) (by decide) (by decide)
  exact ⟨s', hs', ha, hb, hc1, hc2⟩


end SwapTrade

namespace SwapTrade

theorem goodBalFn_updateB {b : Addr → Asset → Int} {u : Addr} {a : Asset}
    {v : Int} (hg : ∀ u' a', 0 ≤ b u' a') (hv : 0 ≤ v) :
    ∀ u' a', 0 ≤ updateB b u a v u' a' := by
  intro u' a'
  simp only [updateB]
  split
  · exact hv
  · exact hg u' a'

theorem goodB_transfer {p : Portfolio} {fa ta : Asset} {user : Addr}
    {amount : Int} {p1 : Portfolio} (hg : goodBalances p)
    (h : Portfolio.transfer_asset p fa ta user amount = .ok p1) :
    goodBalances p1 := by
  obtain ⟨hpos, hle, rfl⟩ := transfer_asset_ok_shape h
  intro u a
  have hinner : ∀ u' a', 0 ≤ updateB p.balances user fa
      (p.balances user fa - amount) u' a' :=
    goodBalFn_updateB hg (by omega)
  exact goodBalFn_updateB hinner
    (by have := hinner user ta; omega) u a

theorem goodB_debit {p : Portfolio} {token : Asset} {frm : Addr}
    {amount : Int} {p1 : Portfolio} (hg : goodBalances p)
    (h : Portfolio.debit p token frm amount = .ok p1) : goodBalances p1 := by
  obtain ⟨hpos, hle, rfl⟩ := debit_ok_shape h
  exact goodBalFn_updateB hg (by omega)

theorem goodB_mint {p : Portfolio} {token : Asset} {dst : Addr}
    {amount : Int} {p1 : Portfolio} (hg : goodBalances p)
    (h : Portfolio.mint p token dst amount = .ok p1) : goodBalances p1 := by
  obtain ⟨hpos, rfl⟩ := mint_ok_shape h
  exact goodBalFn_updateB hg (by have := hg dst token; omega)

/-- On success, `perform_swap`'s only balance effect is the transfer. -/
theorem perform_swap_balances_eq {ctx : Ctx} {p : Portfolio} {frm tgt : Sym}
    {amount : Int} {user : Addr} {p' : Portfolio} {out : Int}
    (h : perform_swap ctx p frm tgt amount user = .ok (p', out)) :
    ∃ fa ta p1, p.transfer_asset fa ta user amount = .ok p1 ∧
      p'.balances = p1.balances := by
  obtain ⟨fa, ta, p1, _, _, _, _, _, htr, hshape⟩ := perform_swap_ok_shape h
  obtain ⟨hp', -⟩ := hshape
  refine ⟨fa, ta, p1, htr, ?_⟩
  rw [hp']
  split <;> split <;>
    simp [balances_add_lp_fees, balances_apply_reserve_update]

theorem goodB_perform_swap {ctx : Ctx} {p : Portfolio} {frm tgt : Sym}
    {amount : Int} {user : Addr} {p' : Portfolio} {out : Int}
    (hg : goodBalances p)
    (h : perform_swap ctx p frm tgt amount user = .ok (p', out)) :
    goodBalances p' := by
  obtain ⟨fa, ta, p1, htr, hbal⟩ := perform_swap_balances_eq h
  intro u a
  rw [hbal]
  exact goodB_transfer hg htr u a

theorem goodB_contract_swap {s : ContractState} {now : Nat} {frm tgt : Sym}
    {amount : Int} {user : Addr} {s' : ContractState} {out : Int}
    (hg : goodBalances s.portfolio)
    (h : CounterContract.swap s now frm tgt amount user = .ok (s', out)) :
    goodBalances s'.portfolio := by
  obtain ⟨hrl, p1, p2, hp1, hps, hs'⟩ := contract_swap_ok_shape h
  have hg1 : goodBalances p1 := by
    rcases hp1 with ⟨hfpos, pd, hd, rfl⟩ | ⟨hfneg, rfl⟩
    · intro u a
      rw [balances_collect_fee]
      exact goodB_debit hg hd u a
    · exact hg
  have hg2 : goodBalances p2 := goodB_perform_swap hg1 hps
  rw [hs']
  exact hg2

end SwapTrade

namespace SwapTrade

theorem goodB_add_liquidity {s : ContractState} {now : Nat} {x y : Int}
    {user : Addr} {s' : ContractState} {minted : Int}
    (hg : goodBalances s.portfolio)
    (h : CounterContract.add_liquidity s now x y user = .ok (s', minted)) :
    goodBalances s'.portfolio := by
  simp only [CounterContract.add_liquidity, get_liquidity_XLM,
    get_liquidity_USDCSIM] at h
  split at h
  · exact absurd h (by simp)
  split at h
  · exact absurd h (by simp)
  split at h
  · exact absurd h (by simp)
  split at h
  · exact absurd h (by simp)
  split at h
  · exact absurd h (by simp)
  split at h
  · exact absurd h (by simp)
  rename_i v heq
  split at h
  · exact absurd h (by simp)
  rcases hd1 : Portfolio.debit s.portfolio .XLM user x with e | p1
  · rw [hd1] at h; exact absurd h (by simp)
  rw [hd1] at h
  simp only [] at h
  rcases hd2 : Portfolio.debit p1 (.Custom "USDCSIM") user y with e | p2
  · rw [hd2] at h; exact absurd h (by simp)
  rw [hd2] at h
  simp only [] at h
  rw [Except.ok.injEq, Prod.mk.injEq] at h
  obtain ⟨h1, -⟩ := h
  rw [← h1]
  intro u a
  show 0 ≤ (Portfolio.record_lp_deposit _ _).balances u a
  rw [balances_record_lp_deposit, balances_add_total_lp_tokens,
    balances_set_lp_position, balances_add_pool_liquidity]
  exact goodB_debit (goodB_debit hg hd1) hd2 u a

theorem goodB_remove_liquidity {s : ContractState} {now : Nat}
    {lp_tokens : Int} {user : Addr} {s' : ContractState} {ret : Int × Int}
    (hg : goodBalances s.portfolio)
    (h : CounterContract.remove_liquidity s now lp_tokens user =
      .ok (s', ret)) :
    goodBalances s'.portfolio := by
  simp only [CounterContract.remove_liquidity, get_liquidity_XLM,
    get_liquidity_USDCSIM] at h
  split at h
  · exact absurd h (by simp)
  split at h
  · exact absurd h (by simp)
  rename_i pos hpos
  split at h
  · exact absurd h (by simp)
  split at h
  · exact absurd h (by simp)
  split at h
  · exact absurd h (by simp)
  split at h
  · exact absurd h (by simp)
  split at h
  · exact absurd h (by simp)
  rename_i p2 hm1
  split at h
  · exact absurd h (by simp)
  rename_i p3 hm2
  rw [Except.ok.injEq, Prod.mk.injEq] at h
  obtain ⟨h1, -⟩ := h
  rw [← h1]
  intro u a
  show 0 ≤ (Portfolio.subtract_total_lp_tokens _ _).balances u a
  rw [balances_subtract_total_lp_tokens, balances_set_lp_position]
  refine goodB_mint (goodB_mint (fun u' a' => ?_) hm1) hm2 u a
  rw [balances_set_liquidity, balances_set_liquidity]
  exact hg u' a'

end SwapTrade

namespace SwapTrade

theorem goodB_contract_mint {s : ContractState} {token : Sym} {dst : Addr}
    {amount : Int} {s' : ContractState} (hg : goodBalances s.portfolio)
    (h : CounterContract.mint s token dst amount = .ok s') :
    goodBalances s'.portfolio := by
  simp only [CounterContract.mint] at h
  split at h
  · exact absurd h (by simp)
  rename_i p hm
  rw [Except.ok.injEq] at h
  rw [← h]
  exact goodB_mint hg hm

theorem goodB_single_op {ctx : Ctx} {p : Portfolio} {op : BatchOperation}
    {p' : Portfolio} {v : Int} (hg : goodBalances p)
    (h : execute_single_operation ctx p op = .ok (p', v)) :
    goodBalances p' := by
  cases op with
  | Swap frm tgt amount user =>
    simp only [execute_single_operation] at h
    split at h
    · exact absurd h (by simp)
    split at h
    · exact absurd h (by simp)
    rename_i pr hps
    rw [Except.ok.injEq, Prod.mk.injEq] at h
    obtain ⟨h1, -⟩ := h
    rw [← h1]
    intro u a
    rw [balances_record_trade]
    exact goodB_perform_swap hg hps u a
  | AddLiquidity x y user =>
    simp only [execute_single_operation] at h
    split at h
    · exact absurd h (by simp)
    rw [Except.ok.injEq, Prod.mk.injEq] at h
    obtain ⟨h1, -⟩ := h
    rw [← h1]
    intro u a
    rw [balances_record_lp_deposit, balances_add_pool_liquidity]
    exact hg u a
  | RemoveLiquidity x y user =>
    simp only [execute_single_operation] at h
    split at h
    · exact absurd h (by simp)
    rename_i p1 hm1
    split at h
    · exact absurd h (by simp)
    rename_i p2 hm2
    rw [Except.ok.injEq, Prod.mk.injEq] at h
    obtain ⟨h1, -⟩ := h
    rw [← h1]
    exact goodB_mint (goodB_mint hg hm1) hm2
  | MintToken token dst amount =>
    simp only [execute_single_operation] at h
    split at h
    · exact absurd h (by simp)
    rename_i p1 hm1
    rw [Except.ok.injEq, Prod.mk.injEq] at h
    obtain ⟨h1, -⟩ := h
    rw [← h1]
    exact goodB_mint hg hm1

theorem goodB_batch_loop_atomic {ctx : Ctx} {ops : List BatchOperation} :
    ∀ {p : Portfolio} {acc : BatchResult} {p' : Portfolio}
      {r : BatchResult}, goodBalances p →
      batch_loop_atomic ctx p acc ops = .ok (p', r) → goodBalances p' := by
  induction ops with
  | nil =>
    intro p acc p' r hg h
    simp only [batch_loop_atomic] at h
    rw [Except.ok.injEq, Prod.mk.injEq] at h
    obtain ⟨h1, -⟩ := h
    rw [← h1]
    exact hg
  | cons op rest ih =>
    intro p acc p' r hg h
    simp only [batch_loop_atomic] at h
    split at h
    · rename_i pr hop
      exact ih (goodB_single_op hg hop) h
    · exact absurd h (by simp)
    · exact absurd h (by simp)

theorem goodB_batch_loop_best_effort {ctx : Ctx} {ops : List BatchOperation} :
    ∀ {p : Portfolio} {acc : BatchResult} {p' : Portfolio}
      {r : BatchResult}, goodBalances p →
      batch_loop_best_effort ctx p acc ops = .ok (p', r) → goodBalances p' := by
  induction ops with
  | nil =>
    intro p acc p' r hg h
    simp only [batch_loop_best_effort] at h
    rw [Except.ok.injEq, Prod.mk.injEq] at h
    obtain ⟨h1, -⟩ := h
    rw [← h1]
    exact hg
  | cons op rest ih =>
    intro p acc p' r hg h
    simp only [batch_loop_best_effort] at h
    split at h
    · rename_i pr hop
      exact ih (goodB_single_op hg hop) h
    · exact ih hg h
    · exact absurd h (by simp)

theorem goodB_step {s : ContractState} (op : Op)
    (hg : goodBalances s.portfolio) : goodBalances (step s op).portfolio := by
  cases op with
  | mint token dst amount =>
    simp only [step]
    split
    · rename_i s' hs'
      exact goodB_contract_mint hg hs'
    · exact hg
  | swap now frm tgt amount user =>
    simp only [step]
    split
    · rename_i s' v hs'
      exact goodB_contract_swap hg hs'
    · exact hg
  | add_liquidity now x y user =>
    simp only [step]
    split
    · rename_i s' v hs'
      exact goodB_add_liquidity hg hs'
    · exact hg
  | remove_liquidity now lp user =>
    simp only [step]
    split
    · rename_i s' v hs'
      exact goodB_remove_liquidity hg hs'
    · exact hg
  | batch_atomic now ops =>
    simp only [step]
    split
    · rename_i s' r hs'
      simp only [CounterContract.execute_batch_atomic] at hs'
      split at hs'
      · rename_i p' res hinner
        simp only [SwapTrade.execute_batch_atomic] at hinner
        split at hinner
        · exact absurd hinner (by simp)
        rw [Except.ok.injEq, Prod.mk.injEq] at hs'
        obtain ⟨h1, -⟩ := hs'
        rw [← h1]
        exact goodB_batch_loop_atomic hg hinner
      · rw [Except.ok.injEq, Prod.mk.injEq] at hs'
        obtain ⟨h1, -⟩ := hs'
        rw [← h1]
        exact hg
      · exact absurd hs' (by simp)
    · exact hg
  | batch_best_effort now ops =>
    simp only [step]
    split
    · rename_i s' r hs'
      simp only [CounterContract.execute_batch_best_effort] at hs'
      split at hs'
      · rename_i p' res hinner
        simp only [SwapTrade.execute_batch_best_effort] at hinner
        split at hinner
        · exact absurd hinner (by simp)
        rw [Except.ok.injEq, Prod.mk.injEq] at hs'
        obtain ⟨h1, -⟩ := hs'
        rw [← h1]
        exact goodB_batch_loop_best_effort hg hinner
      · rw [Except.ok.injEq, Prod.mk.injEq] at hs'
        obtain ⟨h1, -⟩ := hs'
        rw [← h1]
        exact hg
      · exact absurd hs' (by simp)
    · exact hg

/-- C3: starting from any state whose portfolio has no negative balance,
no sequence of contract entry points (mint, swap, add/remove liquidity,
atomic or best-effort batches) can produce a negative balance: every
operation either aborts, leaving the pre-state, or moves to a state in
which all balances are still non-negative. -/
theorem balances_never_negative (s : ContractState) (ops : List Op)
    (hg : goodBalances s.portfolio) :
    goodBalances (runOps s ops).portfolio := by
  induction ops generalizing s with
  | nil => exact hg
  | cons op rest ih =>
    simp only [runOps, List.foldl]
    exact ih (step s op) (goodB_step op hg)

theorem balances_never_negative_witness :
    goodBalances zeroState.portfolio ∧
    goodBalances (runOps zeroState
      [.mint "XLM" 3 50,
       .batch_best_effort 0 [.MintToken "XLM" 3 25, .Swap "XLM" "USDC-SIM" 500 3],
       .swap 0 "XLM" "USDCSIM" 20 3]).portfolio :=
  ⟨fun _ _ => le_refl 0,
   balances_never_negative zeroState _ (fun _ _ => le_refl 0)⟩

end SwapTrade
